import Mathlib

/-!
# Temperature characterisation logger

A shallow embedding of `Exploration/Temperature_Characterization.c` and
`Exploration/measurements.c`: the output-file name selection, the four sensor
reads that go through `get_command_result`, and the two measurement phases of
`main`.

Conventions of the embedding.

* A C `int` is an `Int` kept in `[-2^31, 2^31)`; arithmetic that may leave the
  range is followed by `wrapInt` (two's complement wrap-around).
* Text is a `String`; `%d` is `fmtD`.
* The operating system is an explicit environment `Env`: which names `access`
  finds, what the n-th `popen` prints and how it exits, what the n-th `time`
  returns, whether the n-th `fprintf` and the `fclose` succeed.
* Assertions are enabled (`NDEBUG` is not defined); a failed `assert` ends the
  run with `abort`.
* `popen` always yields a stream; `fopen` may yield `NULL`, and `fprintf` on
  `NULL` is undefined (`Res.undef`), as is a cast `(int)` of a `float` whose
  integral part is not an `int`.
* The four sensor calls that are arguments of one `fprintf` are made in an
  order the environment fixes (`Env.argOrder`); the properties hold for every
  order.
* The output stream is fully buffered: `State.stream` holds the lines the
  stream has accepted, `State.file` the lines that have reached the file, which
  they do when `fclose` succeeds; `abort` does not flush the stream.
-/

namespace TempChar

/-! ## Decimal output (`%d`) -/

/-- The character of a decimal digit. -/
def decDigit (d : Nat) : Char :=
  match d with
  | 0 => '0' | 1 => '1' | 2 => '2' | 3 => '3' | 4 => '4'
  | 5 => '5' | 6 => '6' | 7 => '7' | 8 => '8' | _ => '9'

/-- Decimal digits of `n`, most significant first, in front of `acc`. -/
def natDecAux : Nat → Nat → List Char → List Char
  | 0, _, acc => acc
  | fuel + 1, n, acc =>
    if n < 10 then decDigit n :: acc
    else natDecAux fuel (n / 10) (decDigit (n % 10) :: acc)

/-- Decimal digits of a natural number. -/
def natDec (n : Nat) : List Char := natDecAux (n + 1) n []

/-- The text `printf` produces for `%d` on the value `x`. -/
def fmtD (x : Int) : String :=
  match x with
  | Int.ofNat n => String.mk (natDec n)
  | Int.negSucc n => String.mk ('-' :: natDec (n + 1))

/-- Value of a C `int` after two's complement wrap-around to 32 bits. -/
def wrapInt (x : Int) : Int := (x + 2147483648) % 4294967296 - 2147483648

/-! ## Selection of the output file name (`main`, lines 12-20) -/

/-- `sprintf(filename, "%s.csv", file)`. -/
def sprintf_csv (file : String) : String := file ++ ".csv"

/-- `sprintf(filename, "%s_%d.csv", file, v)`. -/
def sprintf_suffix (file : String) (v : Int) : String := file ++ "_" ++ fmtD v ++ ".csv"

/-- The loop `while (access(filename, F_OK) != -1) sprintf(filename, "%s_%d.csv", file, ++v);`
run for at most `fuel` tests of its condition. `access` is the result of
`access(name, F_OK)` for every name. `none`: the loop is still running. -/
def selectLoop (access : String → Int) (file : String) : Nat → Int → String → Option String
  | 0, _, _ => none
  | fuel + 1, v, filename =>
    if access filename ≠ -1 then
      selectLoop access file fuel (wrapInt (v + 1)) (sprintf_suffix file (wrapInt (v + 1)))
    else some filename

/-- Lines 12-20 of `main`: the name later passed to `fopen`. -/
def select_filename (access : String → Int) (fuel : Nat) : Option String :=
  selectLoop access "test" fuel 0 (sprintf_csv "test")

/-- The sequence `test.csv`, `test_1.csv`, `test_2.csv`, ... of the specification. -/
def seqName (n : Nat) : String :=
  if n = 0 then "test.csv" else "test_" ++ String.mk (natDec n) ++ ".csv"

/-! ## Binary floating point

`get_command_result` computes in `double` (the result of `atof`) and `float`.
A floating-point datum is kept exactly: a finite one is `(-1)^neg * m * 2^e`.
Rounding is IEEE 754 round-to-nearest, ties-to-even; arithmetic on `float`
operands is carried out in single precision. The sign of a zero is kept in
`neg`, which no operation of this program observes. -/

/-- A floating-point datum: not-a-number, an infinity, or `(-1)^neg * m * 2^e`. -/
inductive Flt where
  | nan
  | inf (neg : Bool)
  | fin (neg : Bool) (m : Nat) (e : Int)
  deriving DecidableEq, Repr

/-- Parameters of a binary format: precision in bits, least and greatest
exponent of a normal number. -/
structure Format where
  prec : Nat
  emin : Int
  emax : Int

/-- The format of `double`. -/
def binary64 : Format := ⟨53, -1022, 1023⟩

/-- The format of `float`. -/
def binary32 : Format := ⟨24, -126, 127⟩

/-- Whether `2^e ≤ n / d`. -/
def geTwoPow (n d : Nat) (e : Int) : Bool :=
  if 0 ≤ e then decide (d * 2 ^ e.toNat ≤ n) else decide (d ≤ n * 2 ^ (-e).toNat)

/-- Number of halvings that bring `n` below 2, at most `fuel` of them. -/
def log2Aux : Nat → Nat → Nat
  | 0, _ => 0
  | fuel + 1, n => if 2 ≤ n then log2Aux fuel (n / 2) + 1 else 0

/-- The integer `⌊log₂ n⌋` for positive `n`. -/
def ilog2 (n : Nat) : Nat := log2Aux n n

/-- The integer `⌊log₂ (n / d)⌋` for positive `n` and `d`. -/
def floorLog2 (n d : Nat) : Int :=
  let e0 : Int := (ilog2 n : Int) - (ilog2 d : Int)
  if geTwoPow n d e0 then e0 else e0 - 1

/-- The integer nearest to `a / b`, a tie going to the even one. -/
def rne (a b : Nat) : Nat :=
  let q := a / b
  let r := a % b
  if 2 * r < b then q else if b < 2 * r then q + 1 else if q % 2 = 0 then q else q + 1

/-- The datum of format `f` nearest to `(-1)^neg * n / d`. -/
def roundRat (f : Format) (neg : Bool) (n d : Nat) : Flt :=
  if n = 0 then Flt.fin neg 0 0
  else
    let lg := floorLog2 n d
    if f.emax < lg then Flt.inf neg
    else
      let qe : Int := max lg f.emin - ((f.prec : Int) - 1)
      let m := if 0 ≤ qe then rne n (d * 2 ^ qe.toNat) else rne (n * 2 ^ (-qe).toNat) d
      if lg = f.emax ∧ m = 2 ^ f.prec then Flt.inf neg else Flt.fin neg m qe

/-- Conversion of a datum to format `f`, as in `float result = atof(data)`. -/
def Flt.toFormat (f : Format) : Flt → Flt
  | Flt.nan => Flt.nan
  | Flt.inf s => Flt.inf s
  | Flt.fin s m e => roundRat f s (m * 2 ^ e.toNat) (2 ^ (-e).toNat)

/-- The `float` quotient `x / k` for a positive integer constant `k`. -/
def Flt.divNat (x : Flt) (k : Nat) : Flt :=
  match x with
  | Flt.nan => Flt.nan
  | Flt.inf s => Flt.inf s
  | Flt.fin s m e => roundRat binary32 s (m * 2 ^ e.toNat) (2 ^ (-e).toNat * k)

/-- The `float` product `x * k` for a positive integer constant `k`. -/
def Flt.mulNat (x : Flt) (k : Nat) : Flt :=
  match x with
  | Flt.nan => Flt.nan
  | Flt.inf s => Flt.inf s
  | Flt.fin s m e => roundRat binary32 s (m * 2 ^ e.toNat * k) (2 ^ (-e).toNat)

/-- The comparison `x >= 0`. -/
def Flt.ge0 : Flt → Bool
  | Flt.nan => false
  | Flt.inf s => !s
  | Flt.fin s m _ => !s || m == 0

/-- The comparison `x < 0`. -/
def Flt.lt0 : Flt → Bool
  | Flt.nan => false
  | Flt.inf s => s
  | Flt.fin s m _ => s && m != 0

/-- The cast `(int)x`: truncation toward zero; `none` when the truncated value
is not a value of `int` (undefined behaviour in C). -/
def Flt.toInt : Flt → Option Int
  | Flt.nan => none
  | Flt.inf _ => none
  | Flt.fin s m e =>
    let t : Nat := m * 2 ^ e.toNat / 2 ^ (-e).toNat
    let v : Int := if s then -(t : Int) else (t : Int)
    if -2147483648 ≤ v ∧ v < 2147483648 then some v else none

/-! ## `atof` -/

/-- The predicate `isspace` of the C locale. -/
def isSpace (c : Char) : Bool :=
  c == ' ' || c == '\t' || c == '\n' || c == '\x0b' || c == '\x0c' || c == '\r'

/-- Value of a decimal digit character. -/
def digitVal (c : Char) : Option Nat :=
  if 48 ≤ c.toNat ∧ c.toNat ≤ 57 then some (c.toNat - 48) else none

/-- Value of a hexadecimal digit character. -/
def hexVal (c : Char) : Option Nat :=
  if 48 ≤ c.toNat ∧ c.toNat ≤ 57 then some (c.toNat - 48)
  else if 97 ≤ c.toNat ∧ c.toNat ≤ 102 then some (c.toNat - 87)
  else if 65 ≤ c.toNat ∧ c.toNat ≤ 70 then some (c.toNat - 55)
  else none

/-- Reads the longest run of digits: the accumulated value, the number of
digits read and the remaining text. -/
def readDigits (val : Char → Option Nat) (base : Nat) :
    List Char → Nat → Nat → Nat × Nat × List Char
  | [], acc, cnt => (acc, cnt, [])
  | c :: cs, acc, cnt =>
    match val c with
    | some d => readDigits val base cs (acc * base + d) (cnt + 1)
    | none => (acc, cnt, c :: cs)

/-- Reads digits with an optional radix point: the digits taken as one
integer, the number of digits after the point, and the remaining text; `none`
when there is no digit at all. -/
def readMant (val : Char → Option Nat) (base : Nat) (cs : List Char) :
    Option (Nat × Nat × List Char) :=
  match readDigits val base cs 0 0 with
  | (a, na, '.' :: r) =>
    match readDigits val base r a 0 with
    | (b, nb, r2) => if na + nb = 0 then none else some (b, nb, r2)
  | (a, na, r) => if na = 0 then none else some (a, 0, r)

/-- Reads an optional exponent part introduced by `lo` or `up`: its value, or
`0` when the text does not continue with a complete exponent part. -/
def readExp (lo up : Char) (cs : List Char) : Int :=
  match cs with
  | [] => 0
  | c :: r =>
    if c = lo ∨ c = up then
      match r with
      | '-' :: r2 =>
        match readDigits digitVal 10 r2 0 0 with
        | (x, _, _) => -(x : Int)
      | '+' :: r2 =>
        match readDigits digitVal 10 r2 0 0 with
        | (x, _, _) => (x : Int)
      | _ =>
        match readDigits digitVal 10 r 0 0 with
        | (x, _, _) => (x : Int)
    else 0

/-- Lower-case form of an ASCII letter. -/
def lowerChar (c : Char) : Char :=
  if 65 ≤ c.toNat ∧ c.toNat ≤ 90 then Char.ofNat (c.toNat + 32) else c

/-- Whether the text starts with the lower-case word `w`, ignoring case. -/
def startsCI (w : List Char) (cs : List Char) : Bool :=
  (cs.take w.length).map lowerChar == w

/-- The `double` nearest to `(-1)^neg * m * b^x`. -/
def scaled (neg : Bool) (m b : Nat) (x : Int) : Flt :=
  if 0 ≤ x then roundRat binary64 neg (m * b ^ x.toNat) 1
  else roundRat binary64 neg m (b ^ (-x).toNat)

/-- The unsigned part of the subject sequence of `strtod`. -/
def atofBody (neg : Bool) (cs : List Char) : Flt :=
  if startsCI ['i', 'n', 'f'] cs then Flt.inf neg
  else if startsCI ['n', 'a', 'n'] cs then Flt.nan
  else
    let hex : Option (Nat × Nat × List Char) :=
      match cs with
      | '0' :: c :: r => if c = 'x' ∨ c = 'X' then readMant hexVal 16 r else none
      | _ => none
    match hex with
    | some (m, k, r) => scaled neg m 2 (readExp 'p' 'P' r - 4 * (k : Int))
    | none =>
      match readMant digitVal 10 cs with
      | some (m, k, r) => scaled neg m 10 (readExp 'e' 'E' r - (k : Int))
      | none => Flt.fin false 0 0

/-- The function `atof` (`strtod(s, NULL)`) in the C locale: white space, an
optional sign, then a decimal or hexadecimal number, an infinity or a NaN;
`0.0` when no conversion can be made. -/
def atof (s : String) : Flt :=
  match s.data.dropWhile isSpace with
  | '-' :: r => atofBody true r
  | '+' :: r => atofBody false r
  | r => atofBody false r

/-! ## The sensor reader (`measurements.c`) -/

/-- Result of a computation that may end the process. -/
inductive Res (α : Type) where
  | ok (a : α)
  | abort
  | undef
  deriving DecidableEq, Repr

/-- One run of a command through `popen`: what the command writes to its
standard output, the value `pclose` returns, and the text lying in the
uninitialised buffer `data` before `fgets` is called. -/
structure Pipe where
  output : String
  status : Int
  garbage : String

/-- Characters `fgets` stores from a non-empty stream when `k` more fit: it
stops after a newline. -/
def takeLine : Nat → List Char → List Char
  | 0, _ => []
  | _ + 1, [] => []
  | k + 1, c :: cs => if c = '\n' then [c] else c :: takeLine k cs

/-- Content of `data` after `fgets(data, size, filept)`: at most `size - 1`
characters of the first line; untouched when the stream is empty. -/
def fgets (size : Nat) (p : Pipe) : String :=
  if p.output.data = [] then p.garbage else String.mk (takeLine (size - 1) p.output.data)

/-- The function `get_command_result`. -/
def get_command_result (popen : String → Pipe) (command : String) : Res Flt :=
  let filept := popen command
  let data := fgets 64 filept
  if filept.status ≠ 0 then Res.abort
  else
    let result := (atof data).toFormat binary32
    if result.ge0 then Res.ok result else Res.abort

/-- The cast `(int)` applied to the result of a read. -/
def castInt : Res Flt → Res Int
  | Res.ok x =>
    match x.toInt with
    | some v => Res.ok v
    | none => Res.undef
  | Res.abort => Res.abort
  | Res.undef => Res.undef

/-- Applies a `float` operation to the result of a read. -/
def Res.map {α β : Type} (f : α → β) : Res α → Res β
  | Res.ok a => Res.ok (f a)
  | Res.abort => Res.abort
  | Res.undef => Res.undef

/-- The function `get_gpu_temp`. -/
def get_gpu_temp (popen : String → Pipe) : Res Int :=
  castInt (get_command_result popen "vcgencmd measure_temp | sed 's/[^0-9.]//g'")

/-- The function `get_cpu_temp`. -/
def get_cpu_temp (popen : String → Pipe) : Res Int :=
  castInt ((get_command_result popen "cat /sys/class/thermal/thermal_zone0/temp").map
    fun x => x.divNat 1000)

/-- The function `get_cpu_freq`. -/
def get_cpu_freq (popen : String → Pipe) : Res Int :=
  castInt (get_command_result popen "cat /sys/devices/system/cpu/cpu0/cpufreq/scaling_cur_freq")

/-- The function `get_cpu_volts`. -/
def get_cpu_volts (popen : String → Pipe) : Res Int :=
  castInt ((get_command_result popen "vcgencmd measure_volts | sed 's/[^0-9.]//g'").map
    fun x => x.mulNat 1000)

/-- A backend in which every command prints `out` and exits with status 0. -/
def constPipe (out : String) : String → Pipe := fun _ => ⟨out, 0, ""⟩

/-! ## The experiment driver (`main`) -/

/-- The four sensor functions, named as arguments of the row's `fprintf`. -/
inductive Sensor where
  | cpuTemp
  | gpuTemp
  | cpuFreq
  | cpuVolts
  deriving DecidableEq, Repr

/-- The C function behind a sensor. -/
def Sensor.get : Sensor → (String → Pipe) → Res Int
  | Sensor.cpuTemp => get_cpu_temp
  | Sensor.gpuTemp => get_gpu_temp
  | Sensor.cpuFreq => get_cpu_freq
  | Sensor.cpuVolts => get_cpu_volts

/-- The command behind each sensor function. -/
def cpuTempCmd : String := "cat /sys/class/thermal/thermal_zone0/temp"

/-- The command of `get_gpu_temp`. -/
def gpuTempCmd : String := "vcgencmd measure_temp | sed 's/[^0-9.]//g'"

/-- The command of `get_cpu_freq`. -/
def cpuFreqCmd : String := "cat /sys/devices/system/cpu/cpu0/cpufreq/scaling_cur_freq"

/-- The command of `get_cpu_volts`. -/
def cpuVoltsCmd : String := "vcgencmd measure_volts | sed 's/[^0-9.]//g'"

/-- The command a sensor function runs. -/
def Sensor.command : Sensor → String
  | Sensor.cpuTemp => cpuTempCmd
  | Sensor.gpuTemp => gpuTempCmd
  | Sensor.cpuFreq => cpuFreqCmd
  | Sensor.cpuVolts => cpuVoltsCmd

/-- An order in which the four sensor calls that are arguments of one
`fprintf` are made. C leaves this order to the compiler: every arrangement of
the four calls is possible. -/
structure ArgOrder where
  seq : List Sensor
  perm : seq.Perm [Sensor.cpuTemp, Sensor.gpuTemp, Sensor.cpuFreq, Sensor.cpuVolts]

/-- The arguments evaluated in the order they are written. -/
def ArgOrder.leftToRight : ArgOrder :=
  ⟨[Sensor.cpuTemp, Sensor.gpuTemp, Sensor.cpuFreq, Sensor.cpuVolts], List.Perm.refl _⟩

/-- The arguments evaluated last to first: voltage, frequency, GPU temperature,
CPU temperature. -/
def ArgOrder.rightToLeft : ArgOrder :=
  ⟨[Sensor.cpuVolts, Sensor.cpuFreq, Sensor.gpuTemp, Sensor.cpuTemp],
    List.reverse_perm [Sensor.cpuTemp, Sensor.gpuTemp, Sensor.cpuFreq, Sensor.cpuVolts]⟩

/-- The operating environment of one run. -/
structure Env where
  /-- Result of `access(name, F_OK)`. -/
  access : String → Int
  /-- Whether `fopen(name, "w")` returns a stream rather than `NULL`. -/
  fopenOk : String → Bool
  /-- The n-th command run through `popen`, counted from 0. -/
  popen : Nat → String → Pipe
  /-- Value of the n-th call `time(NULL)`, counted from 0. -/
  time : Nat → Int
  /-- Whether the n-th `fprintf`, counted from 0, stores its text. -/
  fprintfOk : Nat → Bool
  /-- The order in which the n-th `fprintf`, counted from 0, has its sensor
  arguments evaluated. -/
  argOrder : Nat → ArgOrder
  /-- Result of `fclose(filept)`. -/
  fclose : Int

/-- What a run has done so far: the lines the output stream has accepted, the
lines that have reached the file, and the numbers of commands run, of clock
readings, of `fprintf` calls and of `sleep` calls. The stream of a regular file
is fully buffered and its buffer is larger than the whole output of a run (at
most 285 bytes), so lines reach the file when the stream is closed and not
before; `abort` does not flush. -/
structure State where
  stream : List String
  file : List String
  npopen : Nat
  ntime : Nat
  nprintf : Nat
  nsleep : Nat
  deriving DecidableEq, Repr

/-- A statement sequence: from a state to a result and the state reached. -/
def Run (α : Type) : Type := State → Res α × State

/-- Sequencing: what follows runs only after a normal completion. -/
def Run.bind {α β : Type} (m : Run α) (f : α → Run β) : Run β := fun s =>
  match m s with
  | (Res.ok a, s1) => f a s1
  | (Res.abort, s1) => (Res.abort, s1)
  | (Res.undef, s1) => (Res.undef, s1)

instance : Monad Run where
  pure a := fun s => (Res.ok a, s)
  bind := Run.bind

/-- A call of one of the four sensor functions: the next command is run. -/
def sensor (env : Env) (get : (String → Pipe) → Res Int) : Run Int := fun s =>
  (get (env.popen s.npopen), { s with npopen := s.npopen + 1 })

/-- The macro `assert`. -/
def assert (c : Bool) : Run Unit := fun s => (if c then Res.ok () else Res.abort, s)

/-- The call `time(NULL)`. -/
def timeNow (env : Env) : Run Int := fun s =>
  (Res.ok (env.time s.ntime), { s with ntime := s.ntime + 1 })

/-- The stream after the n-th `fprintf` has been given `text`: one line longer
when the call stores its text. -/
def put (env : Env) (n : Nat) (stream : List String) (text : String) : List String :=
  if env.fprintfOk n then stream ++ [text] else stream

/-- The call `fprintf(filept, ...)` producing `text`; `filept` is `false` for
the null pointer, on which the call is undefined. The text goes to the buffer
of the stream. The value the call returns is not used by `main`. -/
def fprintf (env : Env) (filept : Bool) (text : String) : Run Unit := fun s =>
  if filept then
    (Res.ok (), { s with stream := put env s.nprintf s.stream text, nprintf := s.nprintf + 1 })
  else (Res.undef, s)

/-- The call `fclose(filept)`: when it succeeds the buffered lines are in the
file. -/
def fclose (env : Env) : Run Int := fun s =>
  (Res.ok env.fclose, if env.fclose = 0 then { s with file := s.stream } else s)

/-- The call `sleep(5)`. -/
def sleep5 : Run Unit := fun s => (Res.ok (), { s with nsleep := s.nsleep + 1 })

/-- The text of the format `"%d,%d,%d,%d,%d\n"`. -/
def fmtRow (a b c d e : Int) : String :=
  fmtD a ++ "," ++ fmtD b ++ "," ++ fmtD c ++ "," ++ fmtD d ++ "," ++ fmtD e ++ "\n"

/-- The header line. -/
def header : String := "CPU Temp,GPU Temp,CPU Freq,CPU Volts,Runtime\n"

/-- The check `(cpu_t > 0) && (cpu_t < 80) && (gpu_t > 0) && (gpu_t < 80)`. -/
def tempsOk (cpu_t gpu_t : Int) : Bool :=
  decide (cpu_t > 0) && decide (cpu_t < 80) && decide (gpu_t > 0) && decide (gpu_t < 80)

/-- The sensor calls `ks` made one after the other, each value kept under its
sensor. -/
def readArgs (env : Env) : List Sensor → (Sensor → Int) → Run (Sensor → Int)
  | [], arg => pure arg
  | k :: ks, arg => do
    let v ← sensor env k.get
    readArgs env ks (fun x => if x = k then v else arg x)

/-- The evaluation of the arguments `get_cpu_temp(), get_gpu_temp(),
get_cpu_freq(), get_cpu_volts()` of the next `fprintf`, in the order the
environment fixes for that call. -/
def rowArgs (env : Env) : Run (Sensor → Int) := fun s =>
  readArgs env (env.argOrder s.nprintf).seq (fun _ => 0) s

/-- Body of the first loop of `main` (lines 27-42). The counting loop between
the two clock readings changes nothing but the time; `%d` prints the time
difference as an `int`. -/
def load_iteration (env : Env) (filept : Bool) : Run Unit := do
  let cpu_t ← sensor env get_cpu_temp
  let gpu_t ← sensor env get_gpu_temp
  assert (tempsOk cpu_t gpu_t)
  let run_s ← timeNow env
  let run_f ← timeNow env
  let arg ← rowArgs env
  fprintf env filept (fmtRow (arg Sensor.cpuTemp) (arg Sensor.gpuTemp) (arg Sensor.cpuFreq)
    (arg Sensor.cpuVolts) (wrapInt (run_f - run_s)))

/-- Body of the second loop of `main` (lines 46-53). -/
def cool_iteration (env : Env) (filept : Bool) : Run Unit := do
  let cpu_t ← sensor env get_cpu_temp
  let gpu_t ← sensor env get_gpu_temp
  assert (tempsOk cpu_t gpu_t)
  let arg ← rowArgs env
  fprintf env filept (fmtRow (arg Sensor.cpuTemp) (arg Sensor.gpuTemp) (arg Sensor.cpuFreq)
    (arg Sensor.cpuVolts) 5)
  sleep5

/-- A loop `for (int i = 0; i < n; i++) body`. -/
def forLoop : Nat → Run Unit → Run Unit
  | 0, _ => pure ()
  | n + 1, body => do body; forLoop n body

/-- The state in which `main` starts: `fopen(filename, "w")` leaves an empty
file. -/
def State.init : State := ⟨[], [], 0, 0, 0, 0⟩

/-- Lines 21-59 of `main`, from `fopen` on; the result is the exit status. -/
def main_from_fopen (env : Env) (filename : String) : Run Int := do
  let filept := env.fopenOk filename
  fprintf env filept header
  forLoop 2 (load_iteration env filept)
  forLoop 2 (cool_iteration env filept)
  let rc ← fclose env
  assert (rc == 0)
  pure 0

/-- The function `main`, its first loop run for at most `fuel` tests: the name
chosen, how the process ends and the state it ends in. `none`: the first loop
is still running. -/
def main (env : Env) (fuel : Nat) : Option (String × Res Int × State) :=
  match select_filename env.access fuel with
  | none => none
  | some filename => some (filename, main_from_fopen env filename State.init)

/-- The sensor function called by the p-th command of a loop iteration whose
`fprintf` evaluates its arguments in the order `ord`: the two reads of the
check, then the four arguments. -/
def callAt (ord : ArgOrder) : Nat → Option Sensor
  | 0 => some Sensor.cpuTemp
  | 1 => some Sensor.gpuTemp
  | p + 2 => ord.seq[p]?

/-- The `double` that `atof` obtains from one run of a command. -/
def parsedDouble (p : Pipe) : Flt := atof (fgets 64 p)

/-- The `float` that `get_command_result` obtains from one run of a command:
`result` after `float result = atof(data)`. -/
def parsed (p : Pipe) : Flt := (atof (fgets 64 p)).toFormat binary32

/-- The text cannot start a number for `strtod`: it is empty, or its first
character is neither a digit nor a point nor one of `i`, `I`, `n`, `N`. -/
def noLead : List Char → Bool
  | [] => true
  | c :: _ => (digitVal c).isNone && c != '.' && lowerChar c != 'i' && lowerChar c != 'n'

/-- The text holds no number for `atof`: after white space and an optional
sign nothing follows that can start one. -/
def unparsable (s : String) : Bool :=
  match s.data.dropWhile isSpace with
  | '-' :: r => noLead r
  | '+' :: r => noLead r
  | r => noLead r

/-- The j-th loop iteration of `main`: two of the first loop, then two of the
second. -/
def iteration (env : Env) (filept : Bool) (j : Nat) : Run Unit :=
  if j < 2 then load_iteration env filept else cool_iteration env filept

/-- The run of `main` from the header up to its first `j` loop iterations. -/
def prefixRun (env : Env) (filept : Bool) : Nat → Run Unit
  | 0 => fprintf env filept header
  | j + 1 => do prefixRun env filept j; iteration env filept j

/-- The statement sequence `m` touches neither the stream nor the file. -/
def KeepsFile {α : Type} (m : Run α) : Prop :=
  ∀ s, (m s).2.stream = s.stream ∧ (m s).2.file = s.file

/-- The relation `R` holds between the stream before `m`, the result of `m`
and the stream after it, and `m` leaves the file as it is. -/
def Post {α : Type} (R : List String → Res α → List String → Prop) (m : Run α) : Prop :=
  ∀ s, R s.stream (m s).1 (m s).2.stream ∧ (m s).2.file = s.file

/-- The lines the stream has accepted after a run whose rows carry the values
`row j`. -/
def runStream (env : Env) (row : Nat → Sensor → Int) : List String :=
  put env 4 (put env 3 (put env 2 (put env 1 (put env 0 [] header)
    (fmtRow (row 0 Sensor.cpuTemp) (row 0 Sensor.gpuTemp) (row 0 Sensor.cpuFreq)
      (row 0 Sensor.cpuVolts) (wrapInt (env.time 1 - env.time 0))))
    (fmtRow (row 1 Sensor.cpuTemp) (row 1 Sensor.gpuTemp) (row 1 Sensor.cpuFreq)
      (row 1 Sensor.cpuVolts) (wrapInt (env.time 3 - env.time 2))))
    (fmtRow (row 2 Sensor.cpuTemp) (row 2 Sensor.gpuTemp) (row 2 Sensor.cpuFreq)
      (row 2 Sensor.cpuVolts) 5))
    (fmtRow (row 3 Sensor.cpuTemp) (row 3 Sensor.gpuTemp) (row 3 Sensor.cpuFreq)
      (row 3 Sensor.cpuVolts) 5)

/-! ## Environments used as concrete inputs -/

/-- The file system holding exactly the first `2^31` names of the sequence. -/
def fullAccess : String → Int := fun s =>
  if ∃ i, i < 2147483648 ∧ s = seqName i then 0 else -1

/-- The file system holding every name but `test_2147483648.csv` and
`test_-2147483648.csv`. -/
def holeAccess : String → Int := fun s =>
  if s = "test_2147483648.csv" ∨ s = "test_-2147483648.csv" then -1 else 0

/-- A backend for experiments: the thermal zone prints `cpu n` at the n-th
command, the other three commands print fixed texts. -/
def demoPopen (cpu : Nat → String) : Nat → String → Pipe := fun n command =>
  if command = cpuTempCmd then ⟨cpu n, 0, ""⟩
  else if command = gpuTempCmd then ⟨"50.0\n", 0, ""⟩
  else if command = cpuFreqCmd then ⟨"1500000000\n", 0, ""⟩
  else ⟨"0.8500\n", 0, ""⟩

/-- An environment for experiments: no file exists yet, the clock advances 12
seconds per reading. -/
def demoEnv (ord : Nat → ArgOrder) (cpu : Nat → String) (fprintfOk : Nat → Bool)
    (fclose : Int) : Env :=
  ⟨fun _ => -1, fun _ => true, demoPopen cpu, fun n => 1700000000 + 12 * n, fprintfOk, ord,
    fclose⟩

/-- The values the sensor functions return under `demoPopen` when the thermal
zone prints `45678`. -/
def demoRow : Sensor → Int
  | Sensor.cpuTemp => 45
  | Sensor.gpuTemp => 50
  | Sensor.cpuFreq => 1500000000
  | Sensor.cpuVolts => 850

/-- The values the sensor functions return under `demoPopen` when the thermal
zone prints `85000`. -/
def hotRow : Sensor → Int
  | Sensor.cpuTemp => 85
  | Sensor.gpuTemp => 50
  | Sensor.cpuFreq => 1500000000
  | Sensor.cpuVolts => 850

/-- A thermal zone that prints `85000` at the commands 2 to 5. -/
def hotRowCpu : Nat → String := fun n => if 2 ≤ n ∧ n ≤ 5 then "85000\n" else "45678\n"

/-- A thermal zone that prints `85000` at command 6. -/
def hotCheckCpu : Nat → String := fun n => if n = 6 then "85000\n" else "45678\n"

/-- A thermal zone that prints `-5` at the commands 8 to 11. -/
def negCpu : Nat → String := fun n => if 8 ≤ n ∧ n ≤ 11 then "-5\n" else "45678\n"

/-- A thermal zone that prints `-5` at command 6. -/
def negCheckCpu : Nat → String := fun n => if n = 6 then "-5\n" else "45678\n"

/-- The arguments evaluated from right to left at every `fprintf`. -/
def rtl : Nat → ArgOrder := fun _ => ArgOrder.rightToLeft

/-- An environment whose clock jumps from 0 to `2^31` during the first load. -/
def jumpEnv (ord : Nat → ArgOrder) : Env :=
  ⟨fun _ => -1, fun _ => true, demoPopen (fun _ => "45678\n"),
    fun n => if n = 0 then 0 else 2147483648, fun _ => true, ord, 0⟩

/-- An environment in which the thermal zone prints `85000` at the commands 2
to 5, those of the arguments of the first row: whatever the order of the
arguments, the CPU temperature of the first row reads 85. -/
def hotRowEnv (ord : Nat → ArgOrder) : Env :=
  demoEnv ord hotRowCpu (fun _ => true) 0

/-- An environment in which the thermal zone prints `85000` at command 6, the
CPU temperature read of the second check. -/
def hotCheckEnv (ord : Nat → ArgOrder) : Env :=
  demoEnv ord hotCheckCpu (fun _ => true) 0

/-- An environment in which the thermal zone prints `-5` at the commands 8 to
11, those of the arguments of the second row: whatever the order of the
arguments, the CPU temperature read of the second row finds `-5`. -/
def negEnv (ord : Nat → ArgOrder) : Env :=
  demoEnv ord negCpu (fun _ => true) 0

/-- An environment in which the thermal zone prints `-5` at command 6, the CPU
temperature read of the second check. -/
def negCheckEnv (ord : Nat → ArgOrder) : Env :=
  demoEnv ord negCheckCpu (fun _ => true) 0

/-- An environment in which the first `fprintf`, that of the header, fails. -/
def noHeaderEnv (ord : Nat → ArgOrder) : Env :=
  demoEnv ord (fun _ => "45678\n") (fun n => decide (n ≠ 0)) 0

/-- An environment in which `fclose` fails. -/
def noCloseEnv (ord : Nat → ArgOrder) : Env :=
  demoEnv ord (fun _ => "45678\n") (fun _ => true) (-1)

/-! # Properties -/

/-! ## Decimal digits: what is printed can be read back -/

theorem digitVal_decDigit (n : Nat) (h : n < 10) : digitVal (decDigit n) = some n := by
  interval_cases n <;> rfl

theorem natDecAux_append (fuel : Nat) : ∀ (n : Nat) (acc r : List Char),
    natDecAux fuel n acc ++ r = natDecAux fuel n (acc ++ r) := by
  induction fuel with
  | zero => intro n acc r; rfl
  | succ fuel ih =>
    intro n acc r
    unfold natDecAux
    split
    · rfl
    · rw [ih]; rfl

theorem readDigits_natDecAux (fuel : Nat) : ∀ (n : Nat) (acc : List Char), n < fuel →
    ∃ k, ∀ a c, readDigits digitVal 10 (natDecAux fuel n acc) a c
      = readDigits digitVal 10 acc (a * 10 ^ k + n) (c + k) := by
  induction fuel with
  | zero => intro n acc h; omega
  | succ fuel ih =>
    intro n acc h
    unfold natDecAux
    split
    · rename_i h10
      refine ⟨1, fun a c => ?_⟩
      simp [readDigits, digitVal_decDigit n h10]
    · rename_i h10
      obtain ⟨k, hk⟩ := ih (n / 10) (decDigit (n % 10) :: acc) (by omega)
      refine ⟨k + 1, fun a c => ?_⟩
      rw [hk]
      simp only [readDigits, digitVal_decDigit (n % 10) (Nat.mod_lt _ (by decide))]
      congr 1
      rw [pow_succ]; have := Nat.div_add_mod n 10; nlinarith

theorem readDigits_stop (val : Char → Option Nat) (base : Nat) (rest : List Char)
    (h : ∀ c r, rest = c :: r → val c = none) (a c : Nat) :
    readDigits val base rest a c = (a, c, rest) := by
  cases rest with
  | nil => rfl
  | cons x xs => simp [readDigits, h x xs rfl]

theorem readDigits_natDec (n : Nat) (rest : List Char)
    (h : ∀ c r, rest = c :: r → digitVal c = none) :
    ∃ k, readDigits digitVal 10 (natDec n ++ rest) 0 0 = (n, k, rest) := by
  obtain ⟨k, hk⟩ := readDigits_natDecAux (n + 1) n rest (by omega)
  refine ⟨k, ?_⟩
  unfold natDec
  rw [natDecAux_append, List.nil_append, hk, readDigits_stop _ _ _ h]
  simp

theorem natDec_inj {n m : Nat} (h : natDec n = natDec m) : n = m := by
  obtain ⟨k, hk⟩ := readDigits_natDec n [] (by simp)
  obtain ⟨j, hj⟩ := readDigits_natDec m [] (by simp)
  rw [h, hj] at hk
  exact (congrArg Prod.fst hk).symm

/-! ## The candidate names -/

theorem wrapInt_of_range (x : Int) (h0 : -2147483648 ≤ x) (h1 : x < 2147483648) :
    wrapInt x = x := by
  unfold wrapInt; omega

theorem sprintf_csv_test : sprintf_csv "test" = seqName 0 := by decide

theorem seqName_data_pos (n : Nat) (hn : n ≠ 0) :
    (seqName n).data = ['t', 'e', 's', 't', '_'] ++ natDec n ++ ['.', 'c', 's', 'v'] := by
  simp only [seqName, hn, if_false, String.data_append]

theorem sprintf_suffix_data (v : Int) :
    (sprintf_suffix "test" v).data
      = ['t', 'e', 's', 't', '_'] ++ (fmtD v).data ++ ['.', 'c', 's', 'v'] := by
  simp only [sprintf_suffix, String.data_append]
  rfl

theorem sprintf_suffix_nat (n : Nat) (hn : n ≠ 0) :
    sprintf_suffix "test" (n : Int) = seqName n := by
  apply String.ext
  rw [sprintf_suffix_data, seqName_data_pos n hn]
  rfl

theorem seqName_inj {n m : Nat} (h : seqName n = seqName m) : n = m := by
  have hd := congrArg String.data h
  by_cases hn : n = 0 <;> by_cases hm : m = 0
  · omega
  · rw [seqName_data_pos m hm, hn] at hd
    exact absurd hd (by simp [seqName])
  · rw [seqName_data_pos n hn, hm] at hd
    exact absurd hd (by simp [seqName])
  · rw [seqName_data_pos n hn, seqName_data_pos m hm] at hd
    simp only [List.append_assoc, List.append_cancel_left_eq, List.append_cancel_right_eq] at hd
    exact natDec_inj hd

/-- No name of the sequence carries a minus sign after the underscore. -/
theorem seqName_ne_minus (n : Nat) (t : List Char) :
    (seqName n).data ≠ ['t', 'e', 's', 't', '_', '-'] ++ t := by
  intro hd
  by_cases hn : n = 0
  · rw [hn] at hd
    exact absurd hd (by simp [seqName])
  · rw [seqName_data_pos n hn] at hd
    simp only [List.append_assoc, List.cons_append, List.nil_append, List.cons.injEq,
      true_and] at hd
    obtain ⟨k, hk⟩ := readDigits_natDec n ['.', 'c', 's', 'v'] (by
      intro c r hcr
      simp only [List.cons.injEq] at hcr
      rw [← hcr.1]; rfl)
    rw [hd] at hk
    simp [readDigits, digitVal] at hk

/-! ## The name loop -/

theorem selectLoop_sound (access : String → Int) (file : String) (fuel : Nat) :
    ∀ (v : Int) (filename r : String),
      selectLoop access file fuel v filename = some r → access r = -1 := by
  induction fuel with
  | zero => intro v filename r h; simp [selectLoop] at h
  | succ fuel ih =>
    intro v filename r h
    unfold selectLoop at h
    split at h
    · exact ih _ _ _ h
    · rename_i hacc
      simp only [Option.some.injEq] at h
      rw [← h]
      exact not_not.mp hacc

theorem selectLoop_mono (access : String → Int) (file : String) (fuel : Nat) :
    ∀ (v : Int) (filename r : String) (extra : Nat),
      selectLoop access file fuel v filename = some r →
      selectLoop access file (fuel + extra) v filename = some r := by
  induction fuel with
  | zero => intro v filename r extra h; simp [selectLoop] at h
  | succ fuel ih =>
    intro v filename r extra h
    rw [show fuel + 1 + extra = (fuel + extra) + 1 by omega]
    unfold selectLoop at h ⊢
    split
    · rename_i hacc
      rw [if_pos hacc] at h
      exact ih _ _ _ _ h
    · rename_i hacc
      rw [if_neg hacc] at h
      exact h

/-- While the names `i`, ..., `i + d - 1` of the sequence exist and the counter
stays below `2^31`, `d` rounds of the loop lead from candidate `i` to candidate
`i + d`. -/
theorem selectLoop_skip (access : String → Int) (d : Nat) :
    ∀ (i fuel : Nat), i + d < 2147483648 →
      (∀ j, i ≤ j → j < i + d → access (seqName j) ≠ -1) →
      selectLoop access "test" (fuel + d) (i : Int) (seqName i)
        = selectLoop access "test" fuel ((i + d : Nat) : Int) (seqName (i + d)) := by
  induction d with
  | zero => intro i fuel _ _; rfl
  | succ d ih =>
    intro i fuel hlt hex
    rw [show fuel + (d + 1) = (fuel + d) + 1 by omega]
    rw [selectLoop]
    rw [if_pos (hex i (le_refl i) (by omega))]
    have hw : wrapInt ((i : Int) + 1) = ((i + 1 : Nat) : Int) := by
      rw [wrapInt_of_range _ (by omega) (by omega)]; push_cast; rfl
    rw [hw, sprintf_suffix_nat (i + 1) (by omega)]
    rw [ih (i + 1) fuel (by omega) (fun j h1 h2 => hex j (by omega) (by omega))]
    rw [show i + 1 + d = i + (d + 1) by omega]

theorem select_first_free (access : String → Int) (k : Nat) (hk : k < 2147483648)
    (hfree : access (seqName k) = -1) (hfirst : ∀ j, j < k → access (seqName j) ≠ -1)
    (fuel : Nat) (hfuel : k < fuel) :
    select_filename access fuel = some (seqName k) := by
  obtain ⟨f, rfl⟩ : ∃ f, fuel = (f + 1) + k := ⟨fuel - 1 - k, by omega⟩
  unfold select_filename
  rw [sprintf_csv_test]
  have h := selectLoop_skip access k 0 (f + 1) (by omega)
    (fun j _ h2 => hfirst j (by omega))
  simp only [Nat.zero_add] at h
  rw [show ((0 : Nat) : Int) = 0 from rfl] at h
  rw [h]
  rw [selectLoop]
  rw [if_neg (not_not.mpr hfree)]

/-- With the names `0`, ..., `2^31 - 1` of the sequence present and
`test_-2147483648.csv` absent, the loop leaves with `test_-2147483648.csv`. -/
theorem select_wraps_at (access : String → Int)
    (hex : ∀ j, j < 2147483648 → access (seqName j) ≠ -1)
    (hneg : access "test_-2147483648.csv" = -1) :
    select_filename access (2 + 2147483647) = some "test_-2147483648.csv" := by
  unfold select_filename
  rw [sprintf_csv_test]
  have h := selectLoop_skip access 2147483647 0 2 (by omega)
    (fun j _ h2 => hex j (by omega))
  simp only [Nat.zero_add] at h
  rw [show ((0 : Nat) : Int) = 0 from rfl] at h
  rw [h]
  rw [selectLoop]
  rw [if_pos (hex 2147483647 (by omega))]
  have hw : wrapInt (((2147483647 : Nat) : Int) + 1) = -2147483648 := by decide
  rw [hw]
  have hn : sprintf_suffix "test" (-2147483648) = "test_-2147483648.csv" := by decide
  rw [hn]
  rw [selectLoop]
  rw [if_neg (not_not.mpr hneg)]

theorem select_wraps (access : String → Int)
    (hex : ∀ j, j < 2147483648 → access (seqName j) ≠ -1)
    (hneg : access "test_-2147483648.csv" = -1) (fuel : Nat) :
    select_filename access fuel = none ∨
      select_filename access fuel = some "test_-2147483648.csv" := by
  have hlast := select_wraps_at access hex hneg
  cases hres : select_filename access fuel with
  | none => exact Or.inl rfl
  | some r =>
    right
    by_cases hf : fuel ≤ 2 + 2147483647
    · have := selectLoop_mono access "test" fuel 0 (sprintf_csv "test") r
        (2 + 2147483647 - fuel) hres
      rw [show fuel + (2 + 2147483647 - fuel) = 2 + 2147483647 by omega] at this
      unfold select_filename at hlast
      rw [this] at hlast
      exact hlast
    · have := selectLoop_mono access "test" (2 + 2147483647) 0 (sprintf_csv "test") _
        (fuel - (2 + 2147483647)) hlast
      rw [show 2 + 2147483647 + (fuel - (2 + 2147483647)) = fuel by omega] at this
      unfold select_filename at hres
      rw [hres] at this
      exact this

/-! ## Claims on the selection of the file name -/

/-- C1, as stated, fails: with exactly the `2^31` names `test.csv`, ...,
`test_2147483647.csv` present, the loop never selects `test_2147483648.csv`; the
`int` counter wraps and the name selected is `test_-2147483648.csv`. -/
theorem c1_counterexample :
    (∀ s, fullAccess s ≠ -1 ↔ ∃ i, i < 2147483648 ∧ s = seqName i) ∧
    select_filename fullAccess 2147483649 = some "test_-2147483648.csv" ∧
    ∀ fuel, select_filename fullAccess fuel ≠ some (seqName 2147483648) := by
  have hiff : ∀ s, fullAccess s ≠ -1 ↔ ∃ i, i < 2147483648 ∧ s = seqName i := by
    intro s
    unfold fullAccess
    split <;> simp_all
  have hex : ∀ j, j < 2147483648 → fullAccess (seqName j) ≠ -1 :=
    fun j hj => (hiff _).mpr ⟨j, hj, rfl⟩
  have hneg : fullAccess "test_-2147483648.csv" = -1 := by
    by_contra hc
    obtain ⟨i, _, hi⟩ := (hiff _).mp hc
    exact seqName_ne_minus i ['2', '1', '4', '7', '4', '8', '3', '6', '4', '8', '.', 'c', 's', 'v']
      (by rw [← hi]; rfl)
  have hall := select_wraps fullAccess hex hneg
  have hne : seqName 2147483648 ≠ "test_-2147483648.csv" := by
    intro h
    exact seqName_ne_minus 2147483648
      ['2', '1', '4', '7', '4', '8', '3', '6', '4', '8', '.', 'c', 's', 'v'] (by rw [h]; rfl)
  refine ⟨hiff, select_wraps_at fullAccess hex hneg, ?_⟩
  · intro fuel h
    rcases hall fuel with h2 | h2
    · rw [h2] at h; simp at h
    · rw [h2] at h
      exact hne (Option.some.inj h).symm

/-- C1, amended: for every `N < 2^31`, if the files that exist are exactly
`test.csv`, `test_1.csv`, ..., `test_(N-1).csv`, the loop at the start of `main`
ends after `N + 1` tests of its condition and selects `test_N.csv`. -/
theorem c1_selects_next (access : String → Int) (N : Nat) (hN : N < 2147483648)
    (hfiles : ∀ s, access s ≠ -1 ↔ ∃ i, i < N ∧ s = seqName i)
    (fuel : Nat) (hfuel : N < fuel) :
    select_filename access fuel = some (seqName N) := by
  apply select_first_free access N hN _ _ fuel hfuel
  · by_contra hc
    obtain ⟨i, hi, heq⟩ := (hfiles _).mp hc
    have := seqName_inj heq
    omega
  · intro j hj
    exact (hfiles _).mpr ⟨j, hj, rfl⟩

/-- C1 at two existing files: `test.csv` and `test_1.csv` give `test_2.csv`. -/
theorem c1_selects_next_witness :
    select_filename (fun s => if s = "test.csv" ∨ s = "test_1.csv" then 0 else -1) 3
      = some (seqName 2) :=
  c1_selects_next _ 2 (by decide)
    (by
      intro s
      constructor
      · intro h
        by_cases h0 : s = "test.csv"
        · exact ⟨0, by decide, by rw [h0]; decide⟩
        · by_cases h1 : s = "test_1.csv"
          · exact ⟨1, by decide, by rw [h1]; decide⟩
          · simp [h0, h1] at h
      · rintro ⟨i, hi, rfl⟩
        interval_cases i <;> decide)
    3 (by decide)

/-- C2, as stated, fails: when every name exists except `test_2147483648.csv`
and `test_-2147483648.csv`, a candidate is free and the first free one is
`test_2147483648.csv`, but the loop never returns it. -/
theorem c2_counterexample :
    holeAccess (seqName 2147483648) = -1 ∧
    (∀ j, j < 2147483648 → holeAccess (seqName j) ≠ -1) ∧
    ∀ fuel, select_filename holeAccess fuel ≠ some (seqName 2147483648) := by
  have hbig : seqName 2147483648 = "test_2147483648.csv" := by decide
  have hex : ∀ j, j < 2147483648 → holeAccess (seqName j) ≠ -1 := by
    intro j hj
    have h1 : seqName j ≠ "test_2147483648.csv" := by
      intro h
      rw [← hbig] at h
      have := seqName_inj h
      omega
    have h2 : seqName j ≠ "test_-2147483648.csv" := by
      intro h
      exact seqName_ne_minus j
        ['2', '1', '4', '7', '4', '8', '3', '6', '4', '8', '.', 'c', 's', 'v'] (by rw [h]; rfl)
    simp [holeAccess, h1, h2]
  refine ⟨by rw [hbig]; decide, hex, ?_⟩
  intro fuel h
  rcases select_wraps holeAccess hex (by decide) fuel with h2 | h2
  · rw [h2] at h; simp at h
  · rw [h2, hbig] at h
    exact absurd h (by decide)

/-- C2, amended: when the first free name of the sequence `test.csv`,
`test_1.csv`, `test_2.csv`, ... has a suffix below `2^31`, the loop returns
that name; and whatever exists, a name the loop returns is not the name of an
existing file. -/
theorem c2_first_free (access : String → Int) (k : Nat) (hk : k < 2147483648)
    (hfree : access (seqName k) = -1) (hfirst : ∀ j, j < k → access (seqName j) ≠ -1) :
    (∀ fuel, k < fuel → select_filename access fuel = some (seqName k)) ∧
    (∀ (acc : String → Int) fuel name, select_filename acc fuel = some name → acc name = -1) :=
  ⟨fun fuel hfuel => select_first_free access k hk hfree hfirst fuel hfuel,
   fun acc fuel name h => selectLoop_sound acc "test" fuel 0 (sprintf_csv "test") name h⟩

/-- C2 with `test.csv` and `test_1.csv` present and `test_3.csv` present too:
the first free name is `test_2.csv`. -/
theorem c2_first_free_witness :
    select_filename
        (fun s => if s = "test.csv" ∨ s = "test_1.csv" ∨ s = "test_3.csv" then 0 else -1) 3
      = some (seqName 2) :=
  (c2_first_free _ 2 (by decide) (by decide)
    (by intro j hj; interval_cases j <;> decide)).1 3 (by decide)

/-! ## The two loop bodies -/

theorem bind_apply {α β : Type} (m : Run α) (f : α → Run β) (s : State) :
    (m >>= f) s = match m s with
      | (Res.ok a, s1) => f a s1
      | (Res.abort, s1) => (Res.abort, s1)
      | (Res.undef, s1) => (Res.undef, s1) := rfl

theorem pure_apply {α : Type} (a : α) (s : State) : (pure a : Run α) s = (Res.ok a, s) := rfl

theorem ArgOrder.length_eq (ord : ArgOrder) : ord.seq.length = 4 := ord.perm.length_eq

theorem ArgOrder.mem (ord : ArgOrder) (k : Sensor) : k ∈ ord.seq := by
  rw [ord.perm.mem_iff]
  cases k <;> simp

/-- When each call of `ks` returns the value `vals` gives its sensor, the
calls together return these values. -/
theorem readArgs_ok (env : Env) (vals : Sensor → Int) :
    ∀ (ks : List Sensor) (arg : Sensor → Int) (s : State),
      (∀ i k, ks[i]? = some k → k.get (env.popen (s.npopen + i)) = Res.ok (vals k)) →
      readArgs env ks arg s
        = (Res.ok (fun x => if x ∈ ks then vals x else arg x),
            { s with npopen := s.npopen + ks.length }) := by
  intro ks
  induction ks with
  | nil => intro arg s _; simp [readArgs, pure_apply]
  | cons k ks ih =>
    intro arg s h
    have h0 := h 0 k (by simp)
    rw [Nat.add_zero] at h0
    have hrest := ih (fun x => if x = k then vals k else arg x)
      { s with npopen := s.npopen + 1 } (by
        intro i k1 hk1
        have := h (i + 1) k1 (by simpa using hk1)
        rw [show s.npopen + 1 + i = s.npopen + (i + 1) by omega]
        exact this)
    show (sensor env k.get >>= fun v =>
      readArgs env ks (fun x => if x = k then v else arg x)) s = _
    rw [bind_apply]
    simp only [sensor, h0, hrest]
    refine Prod.ext ?_ ?_
    · simp only
      congr 1
      funext x
      by_cases hx : x = k
      · simp [hx]
      · by_cases hm : x ∈ ks <;> simp [hx, hm]
    · simp only [List.length_cons, State.mk.injEq, true_and]
      exact ⟨by omega, trivial⟩

theorem rowArgs_ok (env : Env) (vals : Sensor → Int) (s : State)
    (h : ∀ i k, (env.argOrder s.nprintf).seq[i]? = some k →
      k.get (env.popen (s.npopen + i)) = Res.ok (vals k)) :
    rowArgs env s = (Res.ok vals, { s with npopen := s.npopen + 4 }) := by
  unfold rowArgs
  rw [readArgs_ok env vals _ _ s h, ArgOrder.length_eq]
  congr 2
  funext x
  simp [ArgOrder.mem]

theorem load_iteration_ok (env : Env) (s : State) (v0 v1 : Int) (row : Sensor → Int)
    (h0 : get_cpu_temp (env.popen s.npopen) = Res.ok v0)
    (h1 : get_gpu_temp (env.popen (s.npopen + 1)) = Res.ok v1)
    (hv : tempsOk v0 v1 = true)
    (hrow : ∀ i k, (env.argOrder s.nprintf).seq[i]? = some k →
      k.get (env.popen (s.npopen + 2 + i)) = Res.ok (row k)) :
    load_iteration env true s = (Res.ok (),
      { stream := put env s.nprintf s.stream
          (fmtRow (row Sensor.cpuTemp) (row Sensor.gpuTemp) (row Sensor.cpuFreq)
            (row Sensor.cpuVolts) (wrapInt (env.time (s.ntime + 1) - env.time s.ntime))),
        file := s.file,
        npopen := s.npopen + 6, ntime := s.ntime + 2, nprintf := s.nprintf + 1,
        nsleep := s.nsleep }) := by
  have hr := rowArgs_ok env row
    ⟨s.stream, s.file, s.npopen + 2, s.ntime + 2, s.nprintf, s.nsleep⟩ hrow
  simp [load_iteration, bind_apply, sensor, assert, timeNow, fprintf, h0, h1, hv, hr]

theorem cool_iteration_ok (env : Env) (s : State) (v0 v1 : Int) (row : Sensor → Int)
    (h0 : get_cpu_temp (env.popen s.npopen) = Res.ok v0)
    (h1 : get_gpu_temp (env.popen (s.npopen + 1)) = Res.ok v1)
    (hv : tempsOk v0 v1 = true)
    (hrow : ∀ i k, (env.argOrder s.nprintf).seq[i]? = some k →
      k.get (env.popen (s.npopen + 2 + i)) = Res.ok (row k)) :
    cool_iteration env true s = (Res.ok (),
      { stream := put env s.nprintf s.stream
          (fmtRow (row Sensor.cpuTemp) (row Sensor.gpuTemp) (row Sensor.cpuFreq)
            (row Sensor.cpuVolts) 5),
        file := s.file,
        npopen := s.npopen + 6, ntime := s.ntime, nprintf := s.nprintf + 1,
        nsleep := s.nsleep + 1 }) := by
  have hr := rowArgs_ok env row
    ⟨s.stream, s.file, s.npopen + 2, s.ntime, s.nprintf, s.nsleep⟩ hrow
  simp [cool_iteration, bind_apply, sensor, assert, fprintf, sleep5, h0, h1, hv, hr]

/-- A failed temperature check ends either loop body by `abort`, stream and
file as they were. -/
theorem iteration_invalid (env : Env) (filept : Bool) (j : Nat) (s : State) (c g : Int)
    (hc : get_cpu_temp (env.popen s.npopen) = Res.ok c)
    (hg : get_gpu_temp (env.popen (s.npopen + 1)) = Res.ok g)
    (hbad : tempsOk c g = false) :
    iteration env filept j s = (Res.abort, { s with npopen := s.npopen + 2 }) := by
  unfold iteration
  split <;>
    simp [load_iteration, cool_iteration, bind_apply, sensor, assert, hc, hg, hbad]

/-! ## What a loop body may do to the stream and to the file -/

theorem keepsFile_sensor (env : Env) (get : (String → Pipe) → Res Int) :
    KeepsFile (sensor env get) := fun _ => ⟨rfl, rfl⟩

theorem keepsFile_assert (c : Bool) : KeepsFile (assert c) := fun _ => ⟨rfl, rfl⟩

theorem keepsFile_timeNow (env : Env) : KeepsFile (timeNow env) := fun _ => ⟨rfl, rfl⟩

theorem keepsFile_bind {α β : Type} (m : Run α) (f : α → Run β) (hm : KeepsFile m)
    (hf : ∀ a, KeepsFile (f a)) : KeepsFile (m >>= f) := by
  intro s
  have hk := hm s
  rw [bind_apply]
  rcases hms : m s with ⟨r, s1⟩
  rw [hms] at hk
  simp only at hk
  cases r with
  | ok a => simp only; rw [← hk.1, ← hk.2]; exact hf a s1
  | abort => exact hk
  | undef => exact hk

theorem keepsFile_readArgs (env : Env) :
    ∀ (ks : List Sensor) (arg : Sensor → Int), KeepsFile (readArgs env ks arg) := by
  intro ks
  induction ks with
  | nil => intro arg s; exact ⟨rfl, rfl⟩
  | cons k ks ih =>
    intro arg
    exact keepsFile_bind _ _ (keepsFile_sensor env k.get) (fun v => ih _)

theorem keepsFile_rowArgs (env : Env) : KeepsFile (rowArgs env) :=
  fun s => keepsFile_readArgs env _ _ s

/-- After statements that keep stream and file, a relation that holds of the
rest and of an early end holds of the whole. -/
theorem post_bind {α β : Type} (R : List String → Res β → List String → Prop)
    (m : Run α) (f : α → Run β) (hm : KeepsFile m) (hf : ∀ a, Post R (f a))
    (habort : ∀ fl, R fl Res.abort fl) (hundef : ∀ fl, R fl Res.undef fl) :
    Post R (m >>= f) := by
  intro s
  have hk := hm s
  rw [bind_apply]
  rcases hms : m s with ⟨r, s1⟩
  rw [hms] at hk
  simp only at hk
  cases r with
  | ok a => simp only; rw [← hk.1, ← hk.2]; exact hf a s1
  | abort => simp only; rw [hk.1]; exact ⟨habort _, hk.2⟩
  | undef => simp only; rw [hk.1]; exact ⟨hundef _, hk.2⟩

/-- The first loop body satisfies a relation that its `fprintf` satisfies and
that holds of an early end. -/
theorem post_load (R : List String → Res Unit → List String → Prop)
    (env : Env) (filept : Bool)
    (habort : ∀ fl, R fl Res.abort fl) (hundef : ∀ fl, R fl Res.undef fl)
    (hload : ∀ a b c d e, Post R (fprintf env filept (fmtRow a b c d e))) :
    Post R (load_iteration env filept) := by
  unfold load_iteration
  refine post_bind R _ _ (keepsFile_sensor _ _) (fun _ => ?_) habort hundef
  refine post_bind R _ _ (keepsFile_sensor _ _) (fun _ => ?_) habort hundef
  refine post_bind R _ _ (keepsFile_assert _) (fun _ => ?_) habort hundef
  refine post_bind R _ _ (keepsFile_timeNow _) (fun _ => ?_) habort hundef
  refine post_bind R _ _ (keepsFile_timeNow _) (fun _ => ?_) habort hundef
  refine post_bind R _ _ (keepsFile_rowArgs _) (fun _ => ?_) habort hundef
  exact hload _ _ _ _ _

/-- The second loop body satisfies a relation that its last two statements
satisfy and that holds of an early end. -/
theorem post_cool (R : List String → Res Unit → List String → Prop)
    (env : Env) (filept : Bool)
    (habort : ∀ fl, R fl Res.abort fl) (hundef : ∀ fl, R fl Res.undef fl)
    (hcool : ∀ a b c d, Post R (do fprintf env filept (fmtRow a b c d 5); sleep5)) :
    Post R (cool_iteration env filept) := by
  unfold cool_iteration
  refine post_bind R _ _ (keepsFile_sensor _ _) (fun _ => ?_) habort hundef
  refine post_bind R _ _ (keepsFile_sensor _ _) (fun _ => ?_) habort hundef
  refine post_bind R _ _ (keepsFile_assert _) (fun _ => ?_) habort hundef
  refine post_bind R _ _ (keepsFile_rowArgs _) (fun _ => ?_) habort hundef
  exact hcool _ _ _ _

theorem post_iteration (R : List String → Res Unit → List String → Prop)
    (env : Env) (filept : Bool) (j : Nat)
    (habort : ∀ fl, R fl Res.abort fl) (hundef : ∀ fl, R fl Res.undef fl)
    (hload : ∀ a b c d e, Post R (fprintf env filept (fmtRow a b c d e)))
    (hcool : ∀ a b c d, Post R (do fprintf env filept (fmtRow a b c d 5); sleep5)) :
    Post R (iteration env filept j) := by
  unfold iteration
  split
  · exact post_load R env filept habort hundef hload
  · exact post_cool R env filept habort hundef hcool

/-- A loop body that does not complete leaves the stream as it was, and no
loop body touches the file. -/
theorem iteration_stream_file (env : Env) (filept : Bool) (j : Nat) (s : State) :
    ((iteration env filept j s).1 ≠ Res.ok () → (iteration env filept j s).2.stream = s.stream) ∧
    (iteration env filept j s).2.file = s.file :=
  post_iteration (fun fl r fl1 => r ≠ Res.ok () → fl1 = fl) env filept j
    (fun _ _ => rfl) (fun _ _ => rfl)
    (by
      intro a b c d e s
      cases filept <;> simp [fprintf])
    (by
      intro a b c d s
      cases filept <;> simp [bind_apply, fprintf, sleep5]) s

theorem prefixRun_file (env : Env) (filept : Bool) (j : Nat) (s : State) :
    (prefixRun env filept j s).2.file = s.file := by
  induction j with
  | zero => cases filept <;> simp [prefixRun, fprintf]
  | succ j ih =>
    show ((prefixRun env filept j >>= fun _ => iteration env filept j) s).2.file = _
    rw [bind_apply]
    rcases hp : prefixRun env filept j s with ⟨r, s1⟩
    rw [hp] at ih
    simp only at ih
    cases r with
    | ok a => simp only; rw [(iteration_stream_file env filept j s1).2, ih]
    | abort => exact ih
    | undef => exact ih

/-! ## `main` as a header, four iterations and a close -/

theorem run_bind_assoc {α β γ : Type} (m : Run α) (f : α → Run β) (g : β → Run γ) :
    (m >>= f) >>= g = m >>= fun a => f a >>= g := by
  funext s
  simp only [bind_apply]
  rcases m s with ⟨r, s1⟩
  cases r <;> rfl

theorem run_bind_pure (m : Run Unit) : (m >>= fun _ => (pure () : Run Unit)) = m := by
  funext s
  simp only [bind_apply]
  rcases m s with ⟨r, s1⟩
  cases r <;> rfl

theorem main_from_fopen_eq (env : Env) (filename : String) :
    main_from_fopen env filename
      = (do prefixRun env (env.fopenOk filename) 4
            let rc ← fclose env
            assert (rc == 0)
            pure 0) := by
  simp only [main_from_fopen, prefixRun, forLoop, iteration, run_bind_assoc, run_bind_pure,
    show (0 : Nat) < 2 from by decide, show (1 : Nat) < 2 from by decide,
    show ¬ (2 : Nat) < 2 from by decide, show ¬ (3 : Nat) < 2 from by decide, if_true, if_false,
    Nat.reduceAdd]

theorem prefixRun_abort (env : Env) (filept : Bool) (j : Nat) (s0 s1 : State)
    (h : prefixRun env filept j s0 = (Res.abort, s1)) (k : Nat) :
    prefixRun env filept (j + k) s0 = (Res.abort, s1) := by
  induction k with
  | zero => exact h
  | succ k ih =>
    show (prefixRun env filept (j + k) >>= fun _ => iteration env filept (j + k)) s0 = _
    rw [bind_apply, ih]

/-- When the run reaches its j-th iteration and that iteration ends by
`abort`, so does `main`, in the state of that moment. -/
theorem main_abort_of_iteration (env : Env) (filename : String) (j : Nat) (hj : j < 4)
    (s s1 : State)
    (hpre : prefixRun env (env.fopenOk filename) j State.init = (Res.ok (), s))
    (hit : iteration env (env.fopenOk filename) j s = (Res.abort, s1)) :
    main_from_fopen env filename State.init = (Res.abort, s1) := by
  have h1 : prefixRun env (env.fopenOk filename) (j + 1) State.init = (Res.abort, s1) := by
    show (prefixRun env _ j >>= fun _ => iteration env _ j) State.init = _
    rw [bind_apply, hpre]
    exact hit
  have h4 := prefixRun_abort env _ (j + 1) State.init s1 h1 (3 - j)
  rw [show j + 1 + (3 - j) = 4 by omega] at h4
  rw [main_from_fopen_eq, bind_apply, h4]

theorem main_of_select (env : Env) (fuel : Nat) (filename : String)
    (hsel : select_filename env.access fuel = some filename) :
    main env fuel = some (filename, main_from_fopen env filename State.init) := by
  unfold main
  rw [hsel]

theorem tempsOk_iff (c g : Int) : tempsOk c g = true ↔ 0 < c ∧ c < 80 ∧ 0 < g ∧ g < 80 := by
  simp [tempsOk, and_assoc]

/-- The state after the four iterations of a run whose checks read `chk j` and
whose rows carry the values `row j`, whatever the order of the arguments. -/
theorem prefixRun_ok (env : Env) (chk : Nat → Int × Int) (row : Nat → Sensor → Int)
    (hchk : ∀ j, j < 4 → get_cpu_temp (env.popen (6 * j)) = Res.ok (chk j).1 ∧
      get_gpu_temp (env.popen (6 * j + 1)) = Res.ok (chk j).2 ∧
      tempsOk (chk j).1 (chk j).2 = true)
    (hrow : ∀ j, j < 4 → ∀ i k, (env.argOrder (j + 1)).seq[i]? = some k →
      k.get (env.popen (6 * j + 2 + i)) = Res.ok (row j k)) :
    prefixRun env true 4 State.init
      = (Res.ok (), ⟨runStream env row, [], 24, 4, 5, 2⟩) := by
  have e0 : prefixRun env true 0 State.init
      = (Res.ok (), ⟨put env 0 [] header, [], 0, 0, 1, 0⟩) := rfl
  have e1 : iteration env true 0 ⟨put env 0 [] header, [], 0, 0, 1, 0⟩
      = (Res.ok (), ⟨put env 1 (put env 0 [] header) (fmtRow (row 0 Sensor.cpuTemp) (row 0 Sensor.gpuTemp) (row 0 Sensor.cpuFreq) (row 0 Sensor.cpuVolts) (wrapInt (env.time 1 - env.time 0))), [], 6, 2, 2, 0⟩) :=
    load_iteration_ok env ⟨put env 0 [] header, [], 0, 0, 1, 0⟩ (chk 0).1 (chk 0).2 (row 0)
      (hchk 0 (by decide)).1 (hchk 0 (by decide)).2.1 (hchk 0 (by decide)).2.2
      (hrow 0 (by decide))
  have e2 : iteration env true 1 ⟨put env 1 (put env 0 [] header) (fmtRow (row 0 Sensor.cpuTemp) (row 0 Sensor.gpuTemp) (row 0 Sensor.cpuFreq) (row 0 Sensor.cpuVolts) (wrapInt (env.time 1 - env.time 0))), [], 6, 2, 2, 0⟩
      = (Res.ok (), ⟨put env 2 (put env 1 (put env 0 [] header) (fmtRow (row 0 Sensor.cpuTemp) (row 0 Sensor.gpuTemp) (row 0 Sensor.cpuFreq) (row 0 Sensor.cpuVolts) (wrapInt (env.time 1 - env.time 0)))) (fmtRow (row 1 Sensor.cpuTemp) (row 1 Sensor.gpuTemp) (row 1 Sensor.cpuFreq) (row 1 Sensor.cpuVolts) (wrapInt (env.time 3 - env.time 2))), [], 12, 4, 3, 0⟩) :=
    load_iteration_ok env ⟨put env 1 (put env 0 [] header) (fmtRow (row 0 Sensor.cpuTemp) (row 0 Sensor.gpuTemp) (row 0 Sensor.cpuFreq) (row 0 Sensor.cpuVolts) (wrapInt (env.time 1 - env.time 0))), [], 6, 2, 2, 0⟩ (chk 1).1 (chk 1).2 (row 1)
      (hchk 1 (by decide)).1 (hchk 1 (by decide)).2.1 (hchk 1 (by decide)).2.2
      (hrow 1 (by decide))
  have e3 : iteration env true 2 ⟨put env 2 (put env 1 (put env 0 [] header) (fmtRow (row 0 Sensor.cpuTemp) (row 0 Sensor.gpuTemp) (row 0 Sensor.cpuFreq) (row 0 Sensor.cpuVolts) (wrapInt (env.time 1 - env.time 0)))) (fmtRow (row 1 Sensor.cpuTemp) (row 1 Sensor.gpuTemp) (row 1 Sensor.cpuFreq) (row 1 Sensor.cpuVolts) (wrapInt (env.time 3 - env.time 2))), [], 12, 4, 3, 0⟩
      = (Res.ok (), ⟨put env 3 (put env 2 (put env 1 (put env 0 [] header) (fmtRow (row 0 Sensor.cpuTemp) (row 0 Sensor.gpuTemp) (row 0 Sensor.cpuFreq) (row 0 Sensor.cpuVolts) (wrapInt (env.time 1 - env.time 0)))) (fmtRow (row 1 Sensor.cpuTemp) (row 1 Sensor.gpuTemp) (row 1 Sensor.cpuFreq) (row 1 Sensor.cpuVolts) (wrapInt (env.time 3 - env.time 2)))) (fmtRow (row 2 Sensor.cpuTemp) (row 2 Sensor.gpuTemp) (row 2 Sensor.cpuFreq) (row 2 Sensor.cpuVolts) 5), [], 18, 4, 4, 1⟩) :=
    cool_iteration_ok env ⟨put env 2 (put env 1 (put env 0 [] header) (fmtRow (row 0 Sensor.cpuTemp) (row 0 Sensor.gpuTemp) (row 0 Sensor.cpuFreq) (row 0 Sensor.cpuVolts) (wrapInt (env.time 1 - env.time 0)))) (fmtRow (row 1 Sensor.cpuTemp) (row 1 Sensor.gpuTemp) (row 1 Sensor.cpuFreq) (row 1 Sensor.cpuVolts) (wrapInt (env.time 3 - env.time 2))), [], 12, 4, 3, 0⟩ (chk 2).1 (chk 2).2 (row 2)
      (hchk 2 (by decide)).1 (hchk 2 (by decide)).2.1 (hchk 2 (by decide)).2.2
      (hrow 2 (by decide))
  have e4 : iteration env true 3 ⟨put env 3 (put env 2 (put env 1 (put env 0 [] header) (fmtRow (row 0 Sensor.cpuTemp) (row 0 Sensor.gpuTemp) (row 0 Sensor.cpuFreq) (row 0 Sensor.cpuVolts) (wrapInt (env.time 1 - env.time 0)))) (fmtRow (row 1 Sensor.cpuTemp) (row 1 Sensor.gpuTemp) (row 1 Sensor.cpuFreq) (row 1 Sensor.cpuVolts) (wrapInt (env.time 3 - env.time 2)))) (fmtRow (row 2 Sensor.cpuTemp) (row 2 Sensor.gpuTemp) (row 2 Sensor.cpuFreq) (row 2 Sensor.cpuVolts) 5), [], 18, 4, 4, 1⟩
      = (Res.ok (), ⟨put env 4 (put env 3 (put env 2 (put env 1 (put env 0 [] header) (fmtRow (row 0 Sensor.cpuTemp) (row 0 Sensor.gpuTemp) (row 0 Sensor.cpuFreq) (row 0 Sensor.cpuVolts) (wrapInt (env.time 1 - env.time 0)))) (fmtRow (row 1 Sensor.cpuTemp) (row 1 Sensor.gpuTemp) (row 1 Sensor.cpuFreq) (row 1 Sensor.cpuVolts) (wrapInt (env.time 3 - env.time 2)))) (fmtRow (row 2 Sensor.cpuTemp) (row 2 Sensor.gpuTemp) (row 2 Sensor.cpuFreq) (row 2 Sensor.cpuVolts) 5)) (fmtRow (row 3 Sensor.cpuTemp) (row 3 Sensor.gpuTemp) (row 3 Sensor.cpuFreq) (row 3 Sensor.cpuVolts) 5), [], 24, 4, 5, 2⟩) :=
    cool_iteration_ok env ⟨put env 3 (put env 2 (put env 1 (put env 0 [] header) (fmtRow (row 0 Sensor.cpuTemp) (row 0 Sensor.gpuTemp) (row 0 Sensor.cpuFreq) (row 0 Sensor.cpuVolts) (wrapInt (env.time 1 - env.time 0)))) (fmtRow (row 1 Sensor.cpuTemp) (row 1 Sensor.gpuTemp) (row 1 Sensor.cpuFreq) (row 1 Sensor.cpuVolts) (wrapInt (env.time 3 - env.time 2)))) (fmtRow (row 2 Sensor.cpuTemp) (row 2 Sensor.gpuTemp) (row 2 Sensor.cpuFreq) (row 2 Sensor.cpuVolts) 5), [], 18, 4, 4, 1⟩ (chk 3).1 (chk 3).2 (row 3)
      (hchk 3 (by decide)).1 (hchk 3 (by decide)).2.1 (hchk 3 (by decide)).2.2
      (hrow 3 (by decide))
  show ((((prefixRun env true 0 >>= fun _ => iteration env true 0)
    >>= fun _ => iteration env true 1) >>= fun _ => iteration env true 2)
    >>= fun _ => iteration env true 3) State.init = _
  simp only [bind_apply, e0, e1, e2, e3, e4]
  rfl

theorem main_from_fopen_ok (env : Env) (filename : String) (chk : Nat → Int × Int)
    (row : Nat → Sensor → Int)
    (hopen : env.fopenOk filename = true) (hclose : env.fclose = 0)
    (hchk : ∀ j, j < 4 → get_cpu_temp (env.popen (6 * j)) = Res.ok (chk j).1 ∧
      get_gpu_temp (env.popen (6 * j + 1)) = Res.ok (chk j).2 ∧
      tempsOk (chk j).1 (chk j).2 = true)
    (hrow : ∀ j, j < 4 → ∀ i k, (env.argOrder (j + 1)).seq[i]? = some k →
      k.get (env.popen (6 * j + 2 + i)) = Res.ok (row j k)) :
    main_from_fopen env filename State.init
      = (Res.ok 0, ⟨runStream env row, runStream env row, 24, 4, 5, 2⟩) := by
  rw [main_from_fopen_eq, bind_apply, hopen, prefixRun_ok env chk row hchk hrow]
  simp [bind_apply, fclose, assert, pure_apply, hclose]

/-! ## The demonstration backend -/

theorem ArgOrder.index_lt (ord : ArgOrder) (i : Nat) (k : Sensor) (h : ord.seq[i]? = some k) :
    i < 4 := by
  by_contra hc
  have hn : ord.seq[i]? = none := List.getElem?_eq_none (by rw [ord.length_eq]; omega)
  rw [hn] at h
  cases h

/-- A sensor function looks at the run of its own command only. -/
theorem Sensor.get_congr (k : Sensor) (p q : String → Pipe) (h : p k.command = q k.command) :
    k.get p = k.get q := by
  have e : get_command_result p k.command = get_command_result q k.command := by
    unfold get_command_result
    rw [h]
  cases k
  · exact congrArg (fun r => castInt (Res.map (fun x => x.divNat 1000) r)) e
  · exact congrArg castInt e
  · exact congrArg castInt e
  · exact congrArg (fun r => castInt (Res.map (fun x => x.mulNat 1000) r)) e

theorem demoPopen_command (cpu : Nat → String) (n : Nat) (out : String) (h : cpu n = out)
    (k : Sensor) : demoPopen cpu n k.command = demoPopen (fun _ => out) 0 k.command := by
  unfold demoPopen
  rw [h]

theorem demoPopen_other (cpu : Nat → String) (n : Nat) (out : String) (k : Sensor)
    (hk : k ≠ Sensor.cpuTemp) :
    demoPopen cpu n k.command = demoPopen (fun _ => out) 0 k.command := by
  have hne : k.command ≠ cpuTempCmd := by
    cases k
    · exact absurd rfl hk
    · decide
    · decide
    · decide
  unfold demoPopen
  rw [if_neg hne, if_neg hne]

theorem demoPopen_get (cpu : Nat → String) (n : Nat) (h : cpu n = "45678\n") (k : Sensor) :
    k.get (demoPopen cpu n) = Res.ok (demoRow k) := by
  rw [Sensor.get_congr k _ _ (demoPopen_command cpu n _ h k)]
  cases k <;> decide

theorem demoPopen_get_hot (cpu : Nat → String) (n : Nat) (h : cpu n = "85000\n") (k : Sensor) :
    k.get (demoPopen cpu n) = Res.ok (hotRow k) := by
  rw [Sensor.get_congr k _ _ (demoPopen_command cpu n _ h k)]
  cases k <;> decide

theorem demoPopen_get_other (cpu : Nat → String) (n : Nat) (k : Sensor)
    (hk : k ≠ Sensor.cpuTemp) : k.get (demoPopen cpu n) = Res.ok (demoRow k) := by
  rw [Sensor.get_congr k _ _ (demoPopen_other cpu n "45678\n" k hk)]
  cases k <;> decide

theorem demoPopen_neg (cpu : Nat → String) (n : Nat) (h : cpu n = "-5\n") :
    (parsed (demoPopen cpu n Sensor.cpuTemp.command)).lt0 = true := by
  rw [demoPopen_command cpu n _ h Sensor.cpuTemp]
  decide

/-- Under the demonstration backend with a thermal zone that prints `45678`
at the commands of the checks, every check reads 45 and 50. -/
theorem demo_chk (cpu : Nat → String) (h : ∀ j, j < 4 → cpu (6 * j) = "45678\n") (j : Nat)
    (hj : j < 4) :
    get_cpu_temp (demoPopen cpu (6 * j)) = Res.ok ((45 : Int), (50 : Int)).1 ∧
    get_gpu_temp (demoPopen cpu (6 * j + 1)) = Res.ok ((45 : Int), (50 : Int)).2 ∧
    tempsOk ((45 : Int), (50 : Int)).1 ((45 : Int), (50 : Int)).2 = true :=
  ⟨demoPopen_get cpu (6 * j) (h j hj) Sensor.cpuTemp,
    demoPopen_get_other cpu (6 * j + 1) Sensor.gpuTemp (by decide), by decide⟩

/-! ## Claims on the rows -/

/-- C7: in a successful run (the file is opened, every sensor call returns a
value, every checked temperature lies in (0, 80), every `fprintf` and the
`fclose` succeed) `main` returns 0 and the file consists of exactly five
newline-terminated lines: the header `CPU Temp,GPU Temp,CPU Freq,CPU Volts,Runtime`,
two rows of the load phase and two rows of the cooldown phase, each made of five
integers separated by commas. This holds for every order in which the
arguments of a row are evaluated: `row j k` is the value returned by the call
of sensor `k` made for row `j`. -/
theorem c7_successful_run (env : Env) (fuel : Nat) (filename : String)
    (chk : Nat → Int × Int) (row : Nat → Sensor → Int)
    (hsel : select_filename env.access fuel = some filename)
    (hopen : env.fopenOk filename = true)
    (hwrite : ∀ n, env.fprintfOk n = true)
    (hclose : env.fclose = 0)
    (hchk : ∀ j, j < 4 → get_cpu_temp (env.popen (6 * j)) = Res.ok (chk j).1 ∧
      get_gpu_temp (env.popen (6 * j + 1)) = Res.ok (chk j).2)
    (hvalid : ∀ j, j < 4 → 0 < (chk j).1 ∧ (chk j).1 < 80 ∧ 0 < (chk j).2 ∧ (chk j).2 < 80)
    (hrow : ∀ j, j < 4 → ∀ i k, (env.argOrder (j + 1)).seq[i]? = some k →
      k.get (env.popen (6 * j + 2 + i)) = Res.ok (row j k)) :
    ∃ st, main env fuel = some (filename, Res.ok 0, st) ∧
      st.file = ["CPU Temp,GPU Temp,CPU Freq,CPU Volts,Runtime\n",
        fmtRow (row 0 Sensor.cpuTemp) (row 0 Sensor.gpuTemp) (row 0 Sensor.cpuFreq)
          (row 0 Sensor.cpuVolts) (wrapInt (env.time 1 - env.time 0)),
        fmtRow (row 1 Sensor.cpuTemp) (row 1 Sensor.gpuTemp) (row 1 Sensor.cpuFreq)
          (row 1 Sensor.cpuVolts) (wrapInt (env.time 3 - env.time 2)),
        fmtRow (row 2 Sensor.cpuTemp) (row 2 Sensor.gpuTemp) (row 2 Sensor.cpuFreq)
          (row 2 Sensor.cpuVolts) 5,
        fmtRow (row 3 Sensor.cpuTemp) (row 3 Sensor.gpuTemp) (row 3 Sensor.cpuFreq)
          (row 3 Sensor.cpuVolts) 5] ∧
      ∀ a b c d e, fmtRow a b c d e
        = fmtD a ++ "," ++ fmtD b ++ "," ++ fmtD c ++ "," ++ fmtD d ++ "," ++ fmtD e ++ "\n" := by
  have h := main_from_fopen_ok env filename chk row hopen hclose
    (fun j hj => ⟨(hchk j hj).1, (hchk j hj).2, (tempsOk_iff _ _).mpr (hvalid j hj)⟩) hrow
  refine ⟨(main_from_fopen env filename State.init).2, ?_, ?_, fun _ _ _ _ _ => rfl⟩
  · rw [main_of_select env fuel filename hsel]
    simp only [h]
  · rw [h]
    simp [runStream, put, hwrite, header]

/-- C7 on the demonstration environment, the arguments evaluated from right to
left: five lines. -/
theorem c7_successful_run_witness :
    ∃ st, main (demoEnv rtl (fun _ => "45678\n") (fun _ => true) 0) 1
        = some ("test.csv", Res.ok 0, st) ∧
      st.file = ["CPU Temp,GPU Temp,CPU Freq,CPU Volts,Runtime\n",
        "45,50,1500000000,850,12\n", "45,50,1500000000,850,12\n",
        "45,50,1500000000,850,5\n", "45,50,1500000000,850,5\n"] := by
  obtain ⟨st, h1, h2, _⟩ := c7_successful_run
    (demoEnv rtl (fun _ => "45678\n") (fun _ => true) 0) 1
    "test.csv" (fun _ => (45, 50)) (fun _ => demoRow) (by decide) rfl (fun _ => rfl) rfl
    (fun j hj => ⟨(demo_chk (fun _ => "45678\n") (fun _ _ => rfl) j hj).1,
      (demo_chk (fun _ => "45678\n") (fun _ _ => rfl) j hj).2.1⟩)
    (fun _ _ => by
      show (0 : Int) < 45 ∧ (45 : Int) < 80 ∧ (0 : Int) < 50 ∧ (50 : Int) < 80
      decide)
    (fun j _ i k _ => demoPopen_get (fun _ => "45678\n") (6 * j + 2 + i) rfl k)
  refine ⟨st, h1, ?_⟩
  rw [h2]
  decide

/-- C8, as stated, fails: with the clock at 0 before the load and at `2^31`
after it, the last field of the row is `-2147483648`, not the difference
`2147483648`, whatever the order of the arguments; `%d` prints an `int`. -/
theorem c8_counterexample :
    (∀ ord, (jumpEnv ord).time 1 - (jumpEnv ord).time 0 = 2147483648) ∧
    (∀ ord, (load_iteration (jumpEnv ord) true State.init).2.stream
      = ["45,50,1500000000,850,-2147483648\n"]) ∧
    (∀ ord, (load_iteration (jumpEnv ord) true State.init).2.stream
      ≠ ["45,50,1500000000,850,2147483648\n"]) := by
  have h : ∀ ord, (load_iteration (jumpEnv ord) true State.init).2.stream
      = ["45,50,1500000000,850,-2147483648\n"] := by
    intro ord
    rw [load_iteration_ok (jumpEnv ord) State.init 45 50 demoRow
      (demoPopen_get (fun _ => "45678\n") 0 rfl Sensor.cpuTemp)
      (demoPopen_get (fun _ => "45678\n") 1 rfl Sensor.gpuTemp) (by decide)
      (fun i k _ => demoPopen_get (fun _ => "45678\n") (0 + 2 + i) rfl k)]
    show put (jumpEnv ord) 0 [] (fmtRow 45 50 1500000000 850 (wrapInt (2147483648 - 0))) = _
    show [] ++ [fmtRow 45 50 1500000000 850 (wrapInt (2147483648 - 0))] = _
    decide
  refine ⟨fun _ => by simp [jumpEnv], h, fun ord => ?_⟩
  rw [h ord]
  decide

/-- C8, amended: in a load-phase iteration whose row reads return `row k` for
each sensor `k` (CPU temperature, GPU temperature, frequency, voltage, in
whatever order the calls are made), whose clock readings are `s` and `e` with
`e - s` a value of `int`, and whose `fprintf` stores its text, the line the
stream receives is the decimal text `c,g,f,v,(e-s)` followed by a newline; for
45, 50, 1500000000, 850 and 12 seconds it is `45,50,1500000000,850,12`. -/
theorem c8_load_row (env : Env) (st : State) (t0 t1 s e : Int) (row : Sensor → Int)
    (h0 : get_cpu_temp (env.popen st.npopen) = Res.ok t0)
    (h1 : get_gpu_temp (env.popen (st.npopen + 1)) = Res.ok t1)
    (hcheck : 0 < t0 ∧ t0 < 80 ∧ 0 < t1 ∧ t1 < 80)
    (hs : env.time st.ntime = s) (he : env.time (st.ntime + 1) = e)
    (hrow : ∀ i k, (env.argOrder st.nprintf).seq[i]? = some k →
      k.get (env.popen (st.npopen + 2 + i)) = Res.ok (row k))
    (hwrite : env.fprintfOk st.nprintf = true)
    (hlo : -2147483648 ≤ e - s) (hhi : e - s < 2147483648) :
    (load_iteration env true st).1 = Res.ok () ∧
    (load_iteration env true st).2.stream = st.stream ++
      [fmtD (row Sensor.cpuTemp) ++ "," ++ fmtD (row Sensor.gpuTemp) ++ ","
        ++ fmtD (row Sensor.cpuFreq) ++ "," ++ fmtD (row Sensor.cpuVolts) ++ ","
        ++ fmtD (e - s) ++ "\n"] ∧
    fmtD 45 ++ "," ++ fmtD 50 ++ "," ++ fmtD 1500000000 ++ "," ++ fmtD 850 ++ "," ++ fmtD 12 ++ "\n"
      = "45,50,1500000000,850,12\n" := by
  rw [load_iteration_ok env st t0 t1 row h0 h1 ((tempsOk_iff _ _).mpr hcheck) hrow]
  refine ⟨rfl, ?_, by decide⟩
  simp only [put, hwrite, if_true, hs, he, wrapInt_of_range _ hlo hhi]
  rfl

/-- C8 on the demonstration environment, the arguments evaluated from right to
left: the first row is `45,50,1500000000,850,12`. -/
theorem c8_load_row_witness :
    (load_iteration (demoEnv rtl (fun _ => "45678\n") (fun _ => true) 0) true
        State.init).2.stream
      = [] ++ [fmtD (demoRow Sensor.cpuTemp) ++ "," ++ fmtD (demoRow Sensor.gpuTemp) ++ ","
          ++ fmtD (demoRow Sensor.cpuFreq) ++ "," ++ fmtD (demoRow Sensor.cpuVolts) ++ ","
          ++ fmtD (1700000012 - 1700000000) ++ "\n"] :=
  (c8_load_row (demoEnv rtl (fun _ => "45678\n") (fun _ => true) 0) State.init 45 50
    1700000000 1700000012 demoRow (by decide) (by decide) (by decide) (by decide) (by decide)
    (fun i k _ => demoPopen_get (fun _ => "45678\n") (0 + 2 + i) rfl k) (by decide) (by decide)
    (by decide)).2.1

theorem main_ok_file (env : Env) (filename : String) (code : Int) (st1 : State)
    (h : main_from_fopen env filename State.init = (Res.ok code, st1)) :
    st1.file = st1.stream := by
  rw [main_from_fopen_eq, bind_apply] at h
  rcases hp : prefixRun env (env.fopenOk filename) 4 State.init with ⟨r, s1⟩
  rw [hp] at h
  cases r with
  | ok u =>
    by_cases hc : env.fclose = 0
    · simp [bind_apply, fclose, assert, pure_apply, hc] at h
      rw [← h.2]
    · simp [bind_apply, fclose, assert, pure_apply, hc] at h
  | abort => simp at h
  | undef => simp at h

/-- C9: every row the cooldown phase writes ends with the field `5`, whatever
the sensors return, whatever the clock shows and whatever the order of the
arguments: the stream after the second loop is the stream before it followed
by rows of the form `a,b,c,d,5`; and when `main` returns, the file holds
exactly the lines of the stream. -/
theorem c9_cooldown_runtime (env : Env) (filept : Bool) (st : State) :
    (∃ rows, (forLoop 2 (cool_iteration env filept) st).2.stream = st.stream ++ rows ∧
      ∀ row, row ∈ rows → ∃ a b c d : Int,
        row = fmtD a ++ "," ++ fmtD b ++ "," ++ fmtD c ++ "," ++ fmtD d ++ ",5\n") ∧
    ∀ (filename : String) (code : Int) (st1 : State),
      main_from_fopen env filename State.init = (Res.ok code, st1) → st1.file = st1.stream := by
  refine ⟨?_, fun filename code st1 h => main_ok_file env filename code st1 h⟩
  have hrow : ∀ a b c d : Int, fmtRow a b c d 5
      = fmtD a ++ "," ++ fmtD b ++ "," ++ fmtD c ++ "," ++ fmtD d ++ ",5\n" := by
    intro a b c d
    unfold fmtRow
    rw [show fmtD 5 = "5" from by decide]
    simp only [String.append_assoc]
    rfl
  have hone := post_cool
    (fun fl _ fl1 => fl1 = fl ∨ ∃ a b c d : Int, fl1 = fl ++ [fmtRow a b c d 5]) env filept
    (fun _ => Or.inl rfl) (fun _ => Or.inl rfl)
    (by
      intro a b c d s
      cases filept
      · exact ⟨Or.inl rfl, rfl⟩
      · simp only [bind_apply, fprintf, sleep5, put]
        by_cases hw : env.fprintfOk s.nprintf = true
        · exact ⟨Or.inr ⟨a, b, c, d, by simp [hw]⟩, rfl⟩
        · exact ⟨Or.inl (by simp [hw]), rfl⟩)
  have h1 := (hone st).1
  simp only at h1
  show ∃ rows, ((cool_iteration env filept >>= fun _ =>
    (cool_iteration env filept >>= fun _ => (pure () : Run Unit))) st).2.stream
      = st.stream ++ rows ∧ _
  rw [run_bind_pure, bind_apply]
  rcases hst : cool_iteration env filept st with ⟨r, s1⟩
  rw [hst] at h1
  simp only at h1
  have key : ∀ (fl0 fl1 : List String),
      (fl1 = fl0 ∨ ∃ a b c d : Int, fl1 = fl0 ++ [fmtRow a b c d 5]) →
      ∃ rows, fl1 = fl0 ++ rows ∧ rows.length ≤ 1 ∧ ∀ row, row ∈ rows → ∃ a b c d : Int,
        row = fmtD a ++ "," ++ fmtD b ++ "," ++ fmtD c ++ "," ++ fmtD d ++ ",5\n" := by
    intro fl0 fl1 h
    rcases h with h | ⟨a, b, c, d, h⟩
    · exact ⟨[], by simp [h], by simp, by simp⟩
    · refine ⟨[fmtRow a b c d 5], h, by simp, ?_⟩
      intro row hrow1
      simp only [List.mem_singleton] at hrow1
      exact ⟨a, b, c, d, by rw [hrow1, hrow]⟩
  obtain ⟨rows1, e1, _, p1⟩ := key _ _ h1
  cases r with
  | ok u =>
    simp only
    obtain ⟨rows2, e2, _, p2⟩ := key _ _ (hone s1).1
    refine ⟨rows1 ++ rows2, by rw [e2, e1, List.append_assoc], ?_⟩
    intro row hr
    rcases List.mem_append.mp hr with hr | hr
    · exact p1 row hr
    · exact p2 row hr
  | abort => exact ⟨rows1, e1, p1⟩
  | undef => exact ⟨rows1, e1, p1⟩

/-! ## Claims on the fatal conditions -/

/-- When the i-th call of `ks` ends by `abort` and the calls before it return
values, the calls together end by `abort`. -/
theorem readArgs_abort (env : Env) :
    ∀ (ks : List Sensor) (arg : Sensor → Int) (s : State) (i : Nat) (k : Sensor)
      (vals : Nat → Int), ks[i]? = some k →
      (∀ q, q < i → ∀ k1, ks[q]? = some k1 →
        k1.get (env.popen (s.npopen + q)) = Res.ok (vals q)) →
      k.get (env.popen (s.npopen + i)) = Res.abort →
      (readArgs env ks arg s).1 = Res.abort := by
  intro ks
  induction ks with
  | nil => intro arg s i k vals h; simp at h
  | cons k0 ks ih =>
    intro arg s i k vals hk hbefore hfail
    show ((sensor env k0.get >>= fun v =>
      readArgs env ks (fun x => if x = k0 then v else arg x)) s).1 = _
    rw [bind_apply]
    cases i with
    | zero =>
      simp only [List.getElem?_cons_zero, Option.some.injEq] at hk
      subst hk
      rw [Nat.add_zero] at hfail
      simp [sensor, hfail]
    | succ i =>
      have h0 := hbefore 0 (by omega) k0 (by simp)
      rw [Nat.add_zero] at h0
      simp only [sensor, h0]
      exact ih _ { s with npopen := s.npopen + 1 } i k (fun q => vals (q + 1))
        (by simpa using hk)
        (by
          intro q hq k1 hk1
          have := hbefore (q + 1) (by omega) k1 (by simpa using hk1)
          rw [show s.npopen + 1 + q = s.npopen + (q + 1) by omega]
          exact this)
        (by
          rw [show s.npopen + 1 + i = s.npopen + (i + 1) by omega]
          exact hfail)

/-- When the p-th command of a loop iteration is a sensor call that ends by
`abort`, the calls before it having returned values that pass the check, the
iteration ends by `abort`. -/
theorem iteration_abort_at (env : Env) (filept : Bool) (j : Nat) (s : State) (p : Nat)
    (k : Sensor) (vals : Nat → Int)
    (hcall : callAt (env.argOrder s.nprintf) p = some k)
    (hbefore : ∀ q, q < p → ∀ k1, callAt (env.argOrder s.nprintf) q = some k1 →
      k1.get (env.popen (s.npopen + q)) = Res.ok (vals q))
    (hcheck : 2 ≤ p → tempsOk (vals 0) (vals 1) = true)
    (hfail : k.get (env.popen (s.npopen + p)) = Res.abort) :
    (iteration env filept j s).1 = Res.abort := by
  unfold iteration
  match p, hcall, hbefore, hcheck, hfail with
  | 0, hcall, _, _, hfail =>
    simp only [callAt, Option.some.injEq] at hcall
    subst hcall
    have hf : get_cpu_temp (env.popen s.npopen) = Res.abort := hfail
    split <;> simp [load_iteration, cool_iteration, bind_apply, sensor, hf]
  | 1, hcall, hbefore, _, hfail =>
    simp only [callAt, Option.some.injEq] at hcall
    subst hcall
    have h0 : get_cpu_temp (env.popen s.npopen) = Res.ok (vals 0) :=
      hbefore 0 (by decide) Sensor.cpuTemp rfl
    have hf : get_gpu_temp (env.popen (s.npopen + 1)) = Res.abort := hfail
    split <;> simp [load_iteration, cool_iteration, bind_apply, sensor, h0, hf]
  | i + 2, hcall, hbefore, hcheck, hfail =>
    have h0 : get_cpu_temp (env.popen s.npopen) = Res.ok (vals 0) :=
      hbefore 0 (by omega) Sensor.cpuTemp rfl
    have h1 : get_gpu_temp (env.popen (s.npopen + 1)) = Res.ok (vals 1) :=
      hbefore 1 (by omega) Sensor.gpuTemp rfl
    have hc := hcheck (by omega)
    have hargs : ∀ s2 : State, s2.nprintf = s.nprintf → s2.npopen = s.npopen + 2 →
        (rowArgs env s2).1 = Res.abort := by
      intro s2 e1 e2
      unfold rowArgs
      rw [e1]
      refine readArgs_abort env _ _ s2 i k (fun q => vals (q + 2)) hcall ?_ ?_
      · intro q hq k1 hk1
        rw [e2, show s.npopen + 2 + q = s.npopen + (q + 2) by omega]
        exact hbefore (q + 2) (by omega) k1 hk1
      · rw [e2, show s.npopen + 2 + i = s.npopen + (i + 2) by omega]
        exact hfail
    split
    · have ha := hargs ⟨s.stream, s.file, s.npopen + 2, s.ntime + 2, s.nprintf, s.nsleep⟩
        rfl rfl
      rcases hra : rowArgs env ⟨s.stream, s.file, s.npopen + 2, s.ntime + 2, s.nprintf,
        s.nsleep⟩ with ⟨r, s3⟩
      rw [hra] at ha
      simp only at ha
      subst ha
      simp [load_iteration, bind_apply, sensor, assert, timeNow, h0, h1, hc, hra]
    · have ha := hargs ⟨s.stream, s.file, s.npopen + 2, s.ntime, s.nprintf, s.nsleep⟩
        rfl rfl
      rcases hra : rowArgs env ⟨s.stream, s.file, s.npopen + 2, s.ntime, s.nprintf,
        s.nsleep⟩ with ⟨r, s3⟩
      rw [hra] at ha
      simp only at ha
      subst ha
      simp [cool_iteration, bind_apply, sensor, assert, h0, h1, hc, hra]

theorem lt0_not_ge0 (x : Flt) (h : x.lt0 = true) : x.ge0 = false := by
  cases x with
  | nan => simp [Flt.lt0] at h
  | inf s => simp_all [Flt.lt0, Flt.ge0]
  | fin s m e => simp_all [Flt.lt0, Flt.ge0]

theorem get_command_result_neg (popen : String → Pipe) (command : String)
    (h : (parsed (popen command)).lt0 = true) :
    get_command_result popen command = Res.abort := by
  unfold get_command_result
  simp only
  split
  · rfl
  · have := lt0_not_ge0 _ h
    unfold parsed at this
    rw [this]
    rfl

theorem Sensor.get_neg (k : Sensor) (popen : String → Pipe)
    (h : (parsed (popen k.command)).lt0 = true) : k.get popen = Res.abort := by
  have e := get_command_result_neg popen k.command h
  cases k
  · exact (congrArg (fun r => castInt (Res.map (fun x => x.divNat 1000) r)) e).trans rfl
  · exact (congrArg castInt e).trans rfl
  · exact (congrArg castInt e).trans rfl
  · exact (congrArg (fun r => castInt (Res.map (fun x => x.mulNat 1000) r)) e).trans rfl

/-- A run that reaches an iteration ending by `abort` ends by `abort` with the
stream as it was before the iteration and an empty file. -/
theorem main_abort_state (env : Env) (fuel : Nat) (filename : String) (j : Nat) (st : State)
    (hsel : select_filename env.access fuel = some filename) (hj : j < 4)
    (hpre : prefixRun env (env.fopenOk filename) j State.init = (Res.ok (), st))
    (hab : (iteration env (env.fopenOk filename) j st).1 = Res.abort) :
    ∃ st1, main env fuel = some (filename, Res.abort, st1) ∧ st1.stream = st.stream ∧
      st1.file = [] := by
  have hsf := iteration_stream_file env (env.fopenOk filename) j st
  have hfile : st.file = [] := by
    have := prefixRun_file env (env.fopenOk filename) j State.init
    rw [hpre] at this
    exact this
  refine ⟨(iteration env (env.fopenOk filename) j st).2, ?_,
    hsf.1 (by rw [hab]; exact fun h => Res.noConfusion h), by rw [hsf.2, hfile]⟩
  rw [main_of_select env fuel filename hsel]
  rw [main_abort_of_iteration env filename j hj st
    (iteration env (env.fopenOk filename) j st).2 hpre]
  rw [← hab]

theorem demo_select : select_filename (fun _ => -1) 1 = some "test.csv" := by decide

/-- The state after the header and the first iteration. -/
theorem prefixRun_one (env : Env) (v0 v1 : Int) (row : Sensor → Int)
    (h0 : get_cpu_temp (env.popen 0) = Res.ok v0)
    (h1 : get_gpu_temp (env.popen 1) = Res.ok v1)
    (hv : tempsOk v0 v1 = true)
    (hrow : ∀ i k, (env.argOrder 1).seq[i]? = some k →
      k.get (env.popen (2 + i)) = Res.ok (row k)) :
    prefixRun env true 1 State.init = (Res.ok (),
      ⟨put env 1 (put env 0 [] header) (fmtRow (row Sensor.cpuTemp) (row Sensor.gpuTemp)
        (row Sensor.cpuFreq) (row Sensor.cpuVolts) (wrapInt (env.time 1 - env.time 0))),
        [], 6, 2, 2, 0⟩) := by
  have e0 : prefixRun env true 0 State.init
      = (Res.ok (), ⟨put env 0 [] header, [], 0, 0, 1, 0⟩) := rfl
  have e1 : iteration env true 0 ⟨put env 0 [] header, [], 0, 0, 1, 0⟩
      = (Res.ok (), ⟨put env 1 (put env 0 [] header) (fmtRow (row Sensor.cpuTemp)
        (row Sensor.gpuTemp) (row Sensor.cpuFreq) (row Sensor.cpuVolts)
        (wrapInt (env.time 1 - env.time 0))), [], 6, 2, 2, 0⟩) :=
    load_iteration_ok env ⟨put env 0 [] header, [], 0, 0, 1, 0⟩ v0 v1 row h0 h1 hv
      (fun i k hk => by
        have := hrow i k hk
        rw [show (0 : Nat) + 2 + i = 2 + i by omega]
        exact this)
  show (prefixRun env true 0 >>= fun _ => iteration env true 0) State.init = _
  simp only [bind_apply, e0, e1]

/-- On the demonstration environments the first iteration leaves the header
and the row `45,50,1500000000,850,12` in the stream. -/
theorem demo_prefix_one (ord : Nat → ArgOrder) (cpu : Nat → String) (fc : Int)
    (hcpu : ∀ n, n < 6 → cpu n = "45678\n") :
    prefixRun (demoEnv ord cpu (fun _ => true) fc) true 1 State.init = (Res.ok (),
      ⟨["CPU Temp,GPU Temp,CPU Freq,CPU Volts,Runtime\n", "45,50,1500000000,850,12\n"],
        [], 6, 2, 2, 0⟩) := by
  rw [prefixRun_one (demoEnv ord cpu (fun _ => true) fc) 45 50 demoRow
    (demoPopen_get cpu 0 (hcpu 0 (by decide)) Sensor.cpuTemp)
    (demoPopen_get_other cpu 1 Sensor.gpuTemp (by decide)) (by decide)
    (fun i k hk => demoPopen_get cpu (2 + i)
      (hcpu (2 + i) (by have := ArgOrder.index_lt _ i k hk; omega)) k)]
  show (Res.ok (), State.mk ([] ++ [header] ++ [fmtRow 45 50 1500000000 850
    (wrapInt (1700000000 + 12 * ((1 : Nat) : Int) - (1700000000 + 12 * ((0 : Nat) : Int))))])
    [] 6 2 2 0) = _
  decide

theorem hotRowCpu_in (n : Nat) (h2 : 2 ≤ n) (h5 : n ≤ 5) : hotRowCpu n = "85000\n" := by
  simp [hotRowCpu, h2, h5]

theorem hotRowCpu_out (n : Nat) (h : n < 2 ∨ 5 < n) : hotRowCpu n = "45678\n" := by
  have : ¬ (2 ≤ n ∧ n ≤ 5) := by omega
  simp [hotRowCpu, this]

theorem hotCheckCpu_out (n : Nat) (h : n ≠ 6) : hotCheckCpu n = "45678\n" := by
  simp [hotCheckCpu, h]

theorem negCpu_out (n : Nat) (h : n < 8 ∨ 11 < n) : negCpu n = "45678\n" := by
  have : ¬ (8 ≤ n ∧ n ≤ 11) := by omega
  simp [negCpu, this]

theorem negCpu_in (n : Nat) (h8 : 8 ≤ n) (h11 : n ≤ 11) : negCpu n = "-5\n" := by
  simp [negCpu, h8, h11]

theorem negCheckCpu_out (n : Nat) (h : n ≠ 6) : negCheckCpu n = "45678\n" := by
  simp [negCheckCpu, h]

/-- C3, as stated, fails. The thermal zone prints `85000` for the CPU
temperature of the first row: that read returns 85 and the run goes on to
return 0 with all five lines in the file, the first row carrying the value 85.
And when the second check reads 85 the run aborts with the header and the first
row accepted by the stream but an empty file. Both hold whatever the order of
the arguments. -/
theorem c3_counterexample :
    (∀ ord n, 2 ≤ n → n ≤ 5 → get_cpu_temp ((hotRowEnv ord).popen n) = Res.ok 85) ∧
    (∀ ord, main (hotRowEnv ord) 1 = some ("test.csv", Res.ok 0,
      ⟨["CPU Temp,GPU Temp,CPU Freq,CPU Volts,Runtime\n", "85,50,1500000000,850,12\n",
        "45,50,1500000000,850,12\n", "45,50,1500000000,850,5\n", "45,50,1500000000,850,5\n"],
       ["CPU Temp,GPU Temp,CPU Freq,CPU Volts,Runtime\n", "85,50,1500000000,850,12\n",
        "45,50,1500000000,850,12\n", "45,50,1500000000,850,5\n", "45,50,1500000000,850,5\n"],
        24, 4, 5, 2⟩)) ∧
    (∀ ord, get_cpu_temp ((hotCheckEnv ord).popen 6) = Res.ok 85 ∧
      ∃ st1, main (hotCheckEnv ord) 1 = some ("test.csv", Res.abort, st1) ∧
        st1.stream = ["CPU Temp,GPU Temp,CPU Freq,CPU Volts,Runtime\n",
          "45,50,1500000000,850,12\n"] ∧
        st1.file = []) := by
  refine ⟨?_, ?_, ?_⟩
  · intro ord n h2 h5
    exact demoPopen_get_hot hotRowCpu n (hotRowCpu_in n h2 h5) Sensor.cpuTemp
  · intro ord
    have h := main_from_fopen_ok (hotRowEnv ord) "test.csv" (fun _ => (45, 50))
      (fun j => if j = 0 then hotRow else demoRow) rfl rfl
      (fun j hj => demo_chk hotRowCpu
        (fun j1 _ => hotRowCpu_out (6 * j1) (by omega)) j hj)
      (by
        intro j hj i k hk
        have hi := ArgOrder.index_lt _ i k hk
        by_cases h0 : j = 0
        · subst h0
          exact demoPopen_get_hot hotRowCpu (6 * 0 + 2 + i)
            (hotRowCpu_in _ (by omega) (by omega)) k
        · show k.get _ = Res.ok ((if j = 0 then hotRow else demoRow) k)
          rw [if_neg h0]
          exact demoPopen_get hotRowCpu (6 * j + 2 + i) (hotRowCpu_out _ (by omega)) k)
    rw [main_of_select (hotRowEnv ord) 1 "test.csv" demo_select, h]
    have hs : runStream (hotRowEnv ord) (fun j => if j = 0 then hotRow else demoRow)
        = ["CPU Temp,GPU Temp,CPU Freq,CPU Volts,Runtime\n", "85,50,1500000000,850,12\n",
          "45,50,1500000000,850,12\n", "45,50,1500000000,850,5\n",
          "45,50,1500000000,850,5\n"] := by
      show [] ++ [header] ++ [fmtRow 85 50 1500000000 850
          (wrapInt (1700000000 + 12 * ((1 : Nat) : Int) - (1700000000 + 12 * ((0 : Nat) : Int))))]
        ++ [fmtRow 45 50 1500000000 850
          (wrapInt (1700000000 + 12 * ((3 : Nat) : Int) - (1700000000 + 12 * ((2 : Nat) : Int))))]
        ++ [fmtRow 45 50 1500000000 850 5] ++ [fmtRow 45 50 1500000000 850 5] = _
      decide
    rw [hs]
  · intro ord
    have h6 : get_cpu_temp ((hotCheckEnv ord).popen 6) = Res.ok 85 :=
      demoPopen_get_hot hotCheckCpu 6 rfl Sensor.cpuTemp
    refine ⟨h6, ?_⟩
    have hpre := demo_prefix_one ord hotCheckCpu 0
      (fun n hn => hotCheckCpu_out n (by omega))
    have hit := iteration_invalid (hotCheckEnv ord) true 1
      ⟨["CPU Temp,GPU Temp,CPU Freq,CPU Volts,Runtime\n", "45,50,1500000000,850,12\n"],
        [], 6, 2, 2, 0⟩ 85 50 h6
      (demoPopen_get_other hotCheckCpu 7 Sensor.gpuTemp (by decide)) (by decide)
    exact main_abort_state (hotCheckEnv ord) 1 "test.csv" 1 _ demo_select (by decide) hpre
      (congrArg Prod.fst hit)

/-- C3, amended: when the run reaches an iteration whose check reads a CPU or
GPU temperature outside (0, 80), `main` ends by `abort` at that check: no row is
written after it, the stream holds exactly the lines written before the
iteration, and none of them has reached the file, which is left empty (the
stream is flushed by `fclose` only). Temperatures read for a row are not
checked. -/
theorem c3_check_aborts (env : Env) (fuel : Nat) (filename : String) (j : Nat) (st : State)
    (c g : Int)
    (hsel : select_filename env.access fuel = some filename)
    (hj : j < 4)
    (hpre : prefixRun env (env.fopenOk filename) j State.init = (Res.ok (), st))
    (hc : get_cpu_temp (env.popen st.npopen) = Res.ok c)
    (hg : get_gpu_temp (env.popen (st.npopen + 1)) = Res.ok g)
    (hbad : ¬ (0 < c ∧ c < 80 ∧ 0 < g ∧ g < 80)) :
    ∃ st1, main env fuel = some (filename, Res.abort, st1) ∧ st1.stream = st.stream ∧
      st1.file = [] := by
  have hit := iteration_invalid env (env.fopenOk filename) j st c g hc hg
    (by rw [← Bool.not_eq_true, tempsOk_iff]; exact hbad)
  exact main_abort_state env fuel filename j st hsel hj hpre (by rw [hit])

/-- C3 on an environment whose second check reads 85, the arguments evaluated
from right to left: the run aborts, the stream holds the header and the first
row, the file is empty. -/
theorem c3_check_aborts_witness :
    ∃ st1, main (hotCheckEnv rtl) 1 = some ("test.csv", Res.abort, st1) ∧
      st1.stream = (State.mk ["CPU Temp,GPU Temp,CPU Freq,CPU Volts,Runtime\n",
        "45,50,1500000000,850,12\n"] [] 6 2 2 0).stream ∧
      st1.file = [] :=
  c3_check_aborts (hotCheckEnv rtl) 1 "test.csv" 1
    ⟨["CPU Temp,GPU Temp,CPU Freq,CPU Volts,Runtime\n", "45,50,1500000000,850,12\n"],
      [], 6, 2, 2, 0⟩ 85 50 demo_select (by decide)
    (demo_prefix_one rtl hotCheckCpu 0 (fun n hn => hotCheckCpu_out n (by omega)))
    (demoPopen_get_hot hotCheckCpu 6 rfl Sensor.cpuTemp)
    (demoPopen_get_other hotCheckCpu 7 Sensor.gpuTemp (by decide)) (by decide)

set_option maxRecDepth 100000 in
theorem tiny_negative :
    (parsedDouble ⟨"-1e-50\n", 0, ""⟩).lt0 = true ∧
    get_cpu_freq (constPipe "-1e-50\n") = Res.ok 0 := by
  decide

/-- C5, as stated, fails. The output `-1e-50` parses to a negative value, yet
the read does not fail: stored in the `float` `result` the value is `-0.0`,
which passes `result >= 0`, and `get_cpu_freq` returns 0. And when a read that
finds `-5` aborts the run after the header and the first row were written, the
file does not hold these two lines: it is empty. -/
theorem c5_counterexample :
    (parsedDouble ⟨"-1e-50\n", 0, ""⟩).lt0 = true ∧
    get_cpu_freq (constPipe "-1e-50\n") = Res.ok 0 ∧
    (∀ ord, (parsed ((negCheckEnv ord).popen 6 cpuTempCmd)).lt0 = true ∧
      ∃ st1, main (negCheckEnv ord) 1 = some ("test.csv", Res.abort, st1) ∧
        st1.stream = ["CPU Temp,GPU Temp,CPU Freq,CPU Volts,Runtime\n",
          "45,50,1500000000,850,12\n"] ∧
        st1.file = []) := by
  refine ⟨tiny_negative.1, tiny_negative.2, ?_⟩
  intro ord
  have hneg : (parsed ((negCheckEnv ord).popen 6 cpuTempCmd)).lt0 = true :=
    demoPopen_neg negCheckCpu 6 rfl
  refine ⟨hneg, ?_⟩
  have hpre := demo_prefix_one ord negCheckCpu 0 (fun n hn => negCheckCpu_out n (by omega))
  have hab := iteration_abort_at (negCheckEnv ord) true 1
    ⟨["CPU Temp,GPU Temp,CPU Freq,CPU Volts,Runtime\n", "45,50,1500000000,850,12\n"],
      [], 6, 2, 2, 0⟩ 0 Sensor.cpuTemp (fun _ => 0) rfl
    (fun q hq => absurd hq (Nat.not_lt_zero q)) (fun h => absurd h (by decide))
    (Sensor.get_neg Sensor.cpuTemp _ hneg)
  exact main_abort_state (negCheckEnv ord) 1 "test.csv" 1 _ demo_select (by decide) hpre hab

/-- C5, amended: a command output whose value is still negative once stored in
the `float` `result` (`parsed`; e.g. `-5`) makes each of the four sensor
functions end the process by `abort`; and when the run reaches such a read (the
p-th command of its j-th iteration, a call of sensor `k` in the order of the
arguments at hand, the reads before it in the iteration having returned values
and passed the check), `main` ends by `abort` before any row using the value is
written: the stream holds exactly the lines written before that iteration, and
the file is left empty (the stream is flushed by `fclose` only). -/
theorem c5_negative_read (env : Env) (fuel : Nat) (filename : String) (j p : Nat) (st : State)
    (k : Sensor) (vals : Nat → Int)
    (hsel : select_filename env.access fuel = some filename)
    (hj : j < 4)
    (hpre : prefixRun env (env.fopenOk filename) j State.init = (Res.ok (), st))
    (hcall : callAt (env.argOrder st.nprintf) p = some k)
    (hbefore : ∀ q, q < p → ∀ k1, callAt (env.argOrder st.nprintf) q = some k1 →
      k1.get (env.popen (st.npopen + q)) = Res.ok (vals q))
    (hcheck : 2 ≤ p → 0 < vals 0 ∧ vals 0 < 80 ∧ 0 < vals 1 ∧ vals 1 < 80)
    (hneg : (parsed (env.popen (st.npopen + p) k.command)).lt0 = true) :
    (∀ popen : String → Pipe,
      ((parsed (popen cpuTempCmd)).lt0 = true → get_cpu_temp popen = Res.abort) ∧
      ((parsed (popen gpuTempCmd)).lt0 = true → get_gpu_temp popen = Res.abort) ∧
      ((parsed (popen cpuFreqCmd)).lt0 = true → get_cpu_freq popen = Res.abort) ∧
      ((parsed (popen cpuVoltsCmd)).lt0 = true → get_cpu_volts popen = Res.abort)) ∧
    ∃ st1, main env fuel = some (filename, Res.abort, st1) ∧ st1.stream = st.stream ∧
      st1.file = [] := by
  refine ⟨fun popen => ⟨Sensor.get_neg Sensor.cpuTemp popen, Sensor.get_neg Sensor.gpuTemp popen,
    Sensor.get_neg Sensor.cpuFreq popen, Sensor.get_neg Sensor.cpuVolts popen⟩, ?_⟩
  have hfail := Sensor.get_neg k (env.popen (st.npopen + p)) hneg
  have hab := iteration_abort_at env (env.fopenOk filename) j st p k vals hcall hbefore
    (fun h => (tempsOk_iff _ _).mpr (hcheck h)) hfail
  exact main_abort_state env fuel filename j st hsel hj hpre hab

/-- C5 on an environment whose thermal zone prints `-5` for the CPU temperature
of the second row, the arguments evaluated from right to left (the CPU
temperature is read last, by command 11): the run aborts, the stream holds the
header and the first row, the file is empty. -/
theorem c5_negative_read_witness :
    ∃ st1, main (negEnv rtl) 1 = some ("test.csv", Res.abort, st1) ∧
      st1.stream = (State.mk ["CPU Temp,GPU Temp,CPU Freq,CPU Volts,Runtime\n",
        "45,50,1500000000,850,12\n"] [] 6 2 2 0).stream ∧
      st1.file = [] :=
  (c5_negative_read (negEnv rtl) 1 "test.csv" 1 5
    ⟨["CPU Temp,GPU Temp,CPU Freq,CPU Volts,Runtime\n", "45,50,1500000000,850,12\n"],
      [], 6, 2, 2, 0⟩
    Sensor.cpuTemp
    (fun q => match q with
      | 0 => 45
      | 1 => 50
      | 2 => 850
      | 3 => 1500000000
      | _ => 50)
    demo_select (by decide)
    (demo_prefix_one rtl negCpu 0 (fun n hn => negCpu_out n (by omega)))
    rfl
    (by
      intro q hq k1 hk1
      interval_cases q
      · cases hk1
        exact demoPopen_get negCpu 6 (negCpu_out 6 (by omega)) Sensor.cpuTemp
      · cases hk1
        exact demoPopen_get_other negCpu 7 Sensor.gpuTemp (by decide)
      · cases hk1
        exact demoPopen_get_other negCpu 8 Sensor.cpuVolts (by decide)
      · cases hk1
        exact demoPopen_get_other negCpu 9 Sensor.cpuFreq (by decide)
      · cases hk1
        exact demoPopen_get_other negCpu 10 Sensor.gpuTemp (by decide))
    (fun _ => by decide)
    (demoPopen_neg negCpu 11 (negCpu_in 11 (by omega) (by omega)))).2

/-- C6, as stated, fails: the `fprintf` of the header fails, and the run goes
on to run all 24 commands, to sleep twice and to return 0, whatever the order
of the arguments. -/
theorem c6_counterexample :
    (∀ ord, (noHeaderEnv ord).fprintfOk 0 = false) ∧
    (∀ ord, main (noHeaderEnv ord) 1 = some ("test.csv", Res.ok 0,
      ⟨["45,50,1500000000,850,12\n", "45,50,1500000000,850,12\n",
        "45,50,1500000000,850,5\n", "45,50,1500000000,850,5\n"],
       ["45,50,1500000000,850,12\n", "45,50,1500000000,850,12\n",
        "45,50,1500000000,850,5\n", "45,50,1500000000,850,5\n"], 24, 4, 5, 2⟩)) := by
  refine ⟨fun _ => rfl, fun ord => ?_⟩
  have h := main_from_fopen_ok (noHeaderEnv ord) "test.csv" (fun _ => (45, 50))
    (fun _ => demoRow) rfl rfl
    (fun j hj => demo_chk (fun _ => "45678\n") (fun _ _ => rfl) j hj)
    (fun j _ i k _ => demoPopen_get (fun _ => "45678\n") (6 * j + 2 + i) rfl k)
  rw [main_of_select (noHeaderEnv ord) 1 "test.csv" demo_select, h]
  have hs : runStream (noHeaderEnv ord) (fun _ => demoRow)
      = ["45,50,1500000000,850,12\n", "45,50,1500000000,850,12\n",
        "45,50,1500000000,850,5\n", "45,50,1500000000,850,5\n"] := by
    show [] ++ [fmtRow 45 50 1500000000 850
        (wrapInt (1700000000 + 12 * ((1 : Nat) : Int) - (1700000000 + 12 * ((0 : Nat) : Int))))]
      ++ [fmtRow 45 50 1500000000 850
        (wrapInt (1700000000 + 12 * ((3 : Nat) : Int) - (1700000000 + 12 * ((2 : Nat) : Int))))]
      ++ [fmtRow 45 50 1500000000 850 5] ++ [fmtRow 45 50 1500000000 850 5] = _
    decide
  rw [hs]

/-- C6, amended: a failure of `fclose` is fatal: when it reports failure
`main` does not return, and a run that reaches the close ends there by `abort`.
The result of `fprintf` is not used: the call never ends the run. -/
theorem c6_close_failure (env : Env) (filename : String) (st : State)
    (hclose : env.fclose ≠ 0)
    (hpre : prefixRun env (env.fopenOk filename) 4 State.init = (Res.ok (), st)) :
    main_from_fopen env filename State.init = (Res.abort, st) ∧
    (∀ (e : Env) (name : String) (code : Int) (s : State), e.fclose ≠ 0 →
      main_from_fopen e name State.init ≠ (Res.ok code, s)) ∧
    (∀ (e : Env) (text : String) (s : State), (fprintf e true text s).1 = Res.ok ()) := by
  refine ⟨?_, ?_, fun _ _ _ => rfl⟩
  · rw [main_from_fopen_eq, bind_apply, hpre]
    simp [bind_apply, fclose, assert, hclose]
  · intro e name code s hc h
    rw [main_from_fopen_eq, bind_apply] at h
    rcases hp : prefixRun e (e.fopenOk name) 4 State.init with ⟨r, s1⟩
    rw [hp] at h
    cases r <;> simp [bind_apply, fclose, assert, hc] at h

/-- C6 on an environment whose `fclose` fails, the arguments evaluated from
right to left: the run aborts after its 24 commands. -/
theorem c6_close_failure_witness :
    main_from_fopen (noCloseEnv rtl) "test.csv" State.init = (Res.abort,
      ⟨runStream (noCloseEnv rtl) (fun _ => demoRow), [], 24, 4, 5, 2⟩) :=
  (c6_close_failure (noCloseEnv rtl) "test.csv" _ (by decide)
    (prefixRun_ok (noCloseEnv rtl) (fun _ => (45, 50)) (fun _ => demoRow)
      (fun j hj => demo_chk (fun _ => "45678\n") (fun _ _ => rfl) j hj)
      (fun j _ i k _ => demoPopen_get (fun _ => "45678\n") (6 * j + 2 + i) rfl k))).1

/-! ## Claims on the command result -/

theorem atofBody_noLead (neg : Bool) (r : List Char) (h : noLead r = true) :
    atofBody neg r = Flt.fin false 0 0 := by
  cases r with
  | nil => simp [atofBody, startsCI, readMant, readDigits]
  | cons c cs =>
    simp only [noLead, Bool.and_eq_true, Option.isNone_iff_eq_none, bne_iff_ne, ne_eq] at h
    obtain ⟨⟨⟨hd, hpt⟩, hi⟩, hn⟩ := h
    have h0 : c ≠ '0' := by
      intro h0
      rw [h0] at hd
      exact absurd hd (by decide)
    have hrd : readDigits digitVal 10 (c :: cs) 0 0 = (0, 0, c :: cs) := by
      simp [readDigits, hd]
    have hm : readMant digitVal 10 (c :: cs) = none := by
      unfold readMant
      rw [hrd]
      split
      · rename_i heq
        simp only [Prod.mk.injEq, List.cons.injEq] at heq
        exact absurd heq.2.2.1 hpt
      · rename_i heq
        simp only [Prod.mk.injEq] at heq
        simp [← heq.2.1]
    unfold atofBody
    have s1 : startsCI ['i', 'n', 'f'] (c :: cs) = false := by
      simp [startsCI, hi]
    have s2 : startsCI ['n', 'a', 'n'] (c :: cs) = false := by
      simp [startsCI, hn]
    simp only [s1, s2, Bool.false_eq_true, if_false]
    split
    · rename_i m k r2 heq
      split at heq
      · rename_i c2 r3 hcs
        simp only [List.cons.injEq] at hcs
        exact absurd hcs.1 h0
      · simp at heq
    · rw [hm]

theorem atof_unparsable (s : String) (h : unparsable s = true) : atof s = Flt.fin false 0 0 := by
  unfold unparsable at h
  unfold atof
  split
  · rename_i r heq
    rw [heq] at h
    exact atofBody_noLead true r h
  · rename_i r heq
    rw [heq] at h
    exact atofBody_noLead false r h
  · rename_i r h1 h2
    split at h
    · rename_i r2 heq
      exact absurd heq (h1 r2)
    · rename_i r2 heq
      exact absurd heq (h2 r2)
    · exact atofBody_noLead false _ h

theorem get_command_result_unparsable (popen : String → Pipe) (command : String)
    (hstatus : (popen command).status = 0)
    (h : unparsable (fgets 64 (popen command)) = true) :
    get_command_result popen command = Res.ok (Flt.fin false 0 0) := by
  unfold get_command_result
  simp only [hstatus, ne_eq, not_true_eq_false, if_false, atof_unparsable _ h]
  rfl

/-- C4, as stated, fails: on the output `abc`, which holds no number,
`get_command_result` returns `0.0` and the four sensor functions return 0. -/
theorem c4_counterexample :
    unparsable "abc\n" = true ∧
    get_command_result (constPipe "abc\n") cpuTempCmd = Res.ok (Flt.fin false 0 0) ∧
    get_cpu_temp (constPipe "abc\n") = Res.ok 0 ∧
    get_gpu_temp (constPipe "abc\n") = Res.ok 0 ∧
    get_cpu_freq (constPipe "abc\n") = Res.ok 0 ∧
    get_cpu_volts (constPipe "abc\n") = Res.ok 0 := by
  refine ⟨by decide, by decide, by decide, by decide, by decide, by decide⟩

/-- C4, amended: when a command exits with status 0 and the text captured from
it holds no number (after white space and an optional sign it is over, or goes
on with a character that is neither a digit, nor a point, nor one of `i`, `I`,
`n`, `N`), `get_command_result` returns `0.0` instead of failing, and
`get_cpu_temp`, `get_gpu_temp`, `get_cpu_freq` and `get_cpu_volts` return 0. -/
theorem c4_unparsable_is_zero (popen : String → Pipe)
    (hstatus : ∀ command, (popen command).status = 0)
    (h : ∀ command, unparsable (fgets 64 (popen command)) = true) :
    (∀ command, get_command_result popen command = Res.ok (Flt.fin false 0 0)) ∧
    get_cpu_temp popen = Res.ok 0 ∧ get_gpu_temp popen = Res.ok 0 ∧
    get_cpu_freq popen = Res.ok 0 ∧ get_cpu_volts popen = Res.ok 0 := by
  have hall : ∀ command, get_command_result popen command = Res.ok (Flt.fin false 0 0) :=
    fun command => get_command_result_unparsable popen command (hstatus command) (h command)
  refine ⟨hall, ?_, ?_, ?_, ?_⟩
  · unfold get_cpu_temp; rw [hall]; rfl
  · unfold get_gpu_temp; rw [hall]; rfl
  · unfold get_cpu_freq; rw [hall]; rfl
  · unfold get_cpu_volts; rw [hall]; rfl

/-- C4 on the output `N/A`: the reads return 0. -/
theorem c4_unparsable_is_zero_witness :
    get_cpu_temp (constPipe "error: N/A\n") = Res.ok 0 ∧
    get_cpu_freq (constPipe "error: N/A\n") = Res.ok 0 :=
  have h := c4_unparsable_is_zero (constPipe "error: N/A\n") (fun _ => rfl)
    (fun _ => (by decide : unparsable (fgets 64 ⟨"error: N/A\n", 0, ""⟩) = true))
  ⟨h.2.1, h.2.2.2.1⟩

/-! ## Rounding -/

theorem log2Aux_spec (fuel : Nat) : ∀ n, 1 ≤ n → n ≤ fuel →
    2 ^ log2Aux fuel n ≤ n ∧ n < 2 ^ (log2Aux fuel n + 1) := by
  induction fuel with
  | zero => intro n h1 h2; omega
  | succ fuel ih =>
    intro n h1 h2
    unfold log2Aux
    split
    · rename_i h
      obtain ⟨ha, hb⟩ := ih (n / 2) (by omega) (by omega)
      constructor
      · rw [pow_succ]; omega
      · rw [pow_succ]; rw [pow_succ] at hb; omega
    · simp; omega

theorem ilog2_spec (n : Nat) (h : 1 ≤ n) : 2 ^ ilog2 n ≤ n ∧ n < 2 ^ (ilog2 n + 1) :=
  log2Aux_spec n n h (le_refl n)

/-- If `n / d < 2^(L+1)` then `⌊log₂ (n / d)⌋ ≤ L`. -/
theorem floorLog2_le (n d L : Nat) (hn : 1 ≤ n) (hd : 1 ≤ d) (h : n < d * 2 ^ (L + 1)) :
    floorLog2 n d ≤ (L : Int) := by
  obtain ⟨hn1, _⟩ := ilog2_spec n hn
  obtain ⟨_, hd2⟩ := ilog2_spec d hd
  unfold floorLog2
  simp only
  split
  · rename_i hge
    unfold geTwoPow at hge
    by_cases he : (0 : Int) ≤ (ilog2 n : Int) - (ilog2 d : Int)
    · rw [if_pos he] at hge
      have hge2 := of_decide_eq_true hge
      have hlt : d * 2 ^ ((ilog2 n : Int) - (ilog2 d : Int)).toNat < d * 2 ^ (L + 1) :=
        lt_of_le_of_lt hge2 h
      have hlt2 := Nat.lt_of_mul_lt_mul_left hlt
      have := (Nat.pow_lt_pow_iff_right (by decide : 1 < 2)).mp hlt2
      omega
    · omega
  · have h1 : 2 ^ ilog2 n < 2 ^ (ilog2 d + 1) * 2 ^ (L + 1) := by
      calc 2 ^ ilog2 n ≤ n := hn1
        _ < d * 2 ^ (L + 1) := h
        _ ≤ 2 ^ (ilog2 d + 1) * 2 ^ (L + 1) := Nat.mul_le_mul_right _ (le_of_lt hd2)
    rw [← pow_add] at h1
    have := (Nat.pow_lt_pow_iff_right (by decide : 1 < 2)).mp h1
    omega

theorem rne_mul_self (a d : Nat) (hd : 1 ≤ d) : rne (a * d) d = a := by
  unfold rne
  simp only [Nat.mul_mod_left, Nat.mul_zero]
  rw [if_pos (by omega), Nat.mul_div_cancel _ (by omega)]

theorem rne_bounds (a b : Nat) (hb : 0 < b) :
    2 * (rne a b * b) ≤ 2 * a + b ∧ 2 * a ≤ 2 * (rne a b * b) + b := by
  have h1 := Nat.div_add_mod a b
  have h2 := Nat.mod_lt a hb
  have h3 : (a / b + 1) * b = b * (a / b) + b := by ring
  have h4 : a / b * b = b * (a / b) := by ring
  unfold rne
  simp only
  split
  · rw [h4]; omega
  · split
    · rw [h3]; omega
    · split
      · rw [h4]; omega
      · rw [h3]; omega

/-- A value `m` that fits the precision is kept by rounding: `m * d / d` rounds
to a datum `m * 2^k * 2^(-k)`. -/
theorem roundRat_exact (f : Format) (neg : Bool) (m d : Nat) (hm : 1 ≤ m) (hd : 1 ≤ d)
    (hp : 1 ≤ f.prec) (hlt : m < 2 ^ f.prec) (hemin : f.emin ≤ (f.prec : Int) - 1)
    (hemax : (f.prec : Int) - 1 < f.emax) :
    ∃ k : Nat, roundRat f neg (m * d) d = Flt.fin neg (m * 2 ^ k) (-(k : Int)) := by
  have hn : m * d ≠ 0 := Nat.mul_ne_zero (by omega) (by omega)
  have hlg := floorLog2_le (m * d) d (f.prec - 1) (Nat.one_le_iff_ne_zero.mpr hn) hd (by
    rw [show f.prec - 1 + 1 = f.prec by omega, Nat.mul_comm]
    exact Nat.mul_lt_mul_of_pos_left hlt (by omega))
  have hlg2 : floorLog2 (m * d) d ≤ (f.prec : Int) - 1 := by omega
  unfold roundRat
  rw [if_neg hn]
  simp only
  rw [if_neg (by omega)]
  rw [if_neg (by intro h; omega)]
  generalize hq : max (floorLog2 (m * d) d) f.emin - ((f.prec : Int) - 1) = qe
  have hqe : qe ≤ 0 := by omega
  by_cases h0 : 0 ≤ qe
  · have : qe = 0 := by omega
    subst this
    refine ⟨0, ?_⟩
    simp [rne_mul_self m d hd]
  · refine ⟨(-qe).toNat, ?_⟩
    rw [if_neg h0, Nat.mul_right_comm, rne_mul_self _ d hd]
    congr 1
    omega

/-- The quotient of a `float` integer below `2^24` by 1000, cast to `int`, is
the integer quotient. -/
theorem divNat_toInt (m k : Nat) (hm : 1 ≤ m) (hlt : m < 16777216) :
    ((Flt.fin false (m * 2 ^ k) (-(k : Int))).divNat 1000).toInt = some ((m / 1000 : Nat) : Int) := by
  have hk1 : (-(k : Int)).toNat = 0 := by omega
  have hk2 : (-(-(k : Int))).toNat = k := by omega
  have hP : 0 < 2 ^ k := Nat.pos_pow_of_pos k (by decide)
  unfold Flt.divNat
  simp only [hk1, hk2, pow_zero, Nat.mul_one]
  have hn : m * 2 ^ k ≠ 0 := Nat.mul_ne_zero (by omega) (by omega)
  have hlg := floorLog2_le (m * 2 ^ k) (2 ^ k * 1000) 14 (Nat.one_le_iff_ne_zero.mpr hn)
    (by omega) (by
      rw [show 2 ^ k * 1000 * 2 ^ (14 + 1) = 32768000 * 2 ^ k by ring]
      exact Nat.mul_lt_mul_of_pos_right (by omega) hP)
  unfold roundRat
  rw [if_neg hn]
  simp only [binary32]
  rw [if_neg (by omega)]
  rw [if_neg (by intro h; omega)]
  generalize hq : max (floorLog2 (m * 2 ^ k) (2 ^ k * 1000)) (-126) - (((24 : Nat) : Int) - 1) = qe
  have hqe : qe ≤ -9 := by omega
  rw [if_neg (by omega)]
  obtain ⟨s, hs⟩ : ∃ s : Nat, (-qe).toNat = s + 9 := ⟨(-qe).toNat - 9, by omega⟩
  have hqn : qe.toNat = 0 := by omega
  unfold Flt.toInt
  simp only [hs, hqn, pow_zero, Nat.mul_one, Bool.false_eq_true, if_false]
  generalize hM : rne (m * 2 ^ k * 2 ^ (s + 9)) (2 ^ k * 1000) = M
  obtain ⟨b1, b2⟩ := rne_bounds (m * 2 ^ k * 2 ^ (s + 9)) (2 ^ k * 1000) (by omega)
  rw [hM] at b1 b2
  have hT : 512 ≤ 2 ^ (s + 9) := by
    rw [pow_add]
    have := Nat.pos_pow_of_pos s (by decide : 0 < 2)
    omega
  generalize 2 ^ (s + 9) = T at *
  generalize 2 ^ k = P at *
  have c1 : 2000 * M ≤ 2 * (m * T) + 1000 := by
    apply Nat.le_of_mul_le_mul_left _ hP
    calc P * (2000 * M) = 2 * (M * (P * 1000)) := by ring
      _ ≤ 2 * (m * P * T) + P * 1000 := b1
      _ = P * (2 * (m * T) + 1000) := by ring
  have c2 : 2 * (m * T) ≤ 2000 * M + 1000 := by
    apply Nat.le_of_mul_le_mul_left _ hP
    calc P * (2 * (m * T)) = 2 * (m * P * T) := by ring
      _ ≤ 2 * (M * (P * 1000)) + P * 1000 := b2
      _ = P * (2000 * M + 1000) := by ring
  have hdm := Nat.div_add_mod m 1000
  have hr := Nat.mod_lt m (by decide : 0 < 1000)
  have hmT : m * T = 1000 * (m / 1000 * T) + m % 1000 * T := by
    conv_lhs => rw [← hdm]
    ring
  have hrT : m % 1000 * T ≤ 999 * T := Nat.mul_le_mul_right T (by omega)
  have hdiv : M / T = m / 1000 := by
    apply Nat.div_eq_of_lt_le
    · generalize m / 1000 * T = qT at *
      generalize m % 1000 * T = rT at *
      omega
    · rw [Nat.succ_mul]
      generalize m / 1000 * T = qT at *
      generalize m % 1000 * T = rT at *
      omega
  rw [hdiv]
  rw [if_pos (by constructor <;> omega)]

/-! ## Reading a printed natural number with `atof` -/

theorem natDecAux_mem (fuel : Nat) : ∀ (n : Nat) (acc : List Char) (c : Char),
    c ∈ natDecAux fuel n acc → c ∈ acc ∨ ∃ d, d < 10 ∧ c = decDigit d := by
  induction fuel with
  | zero => intro n acc c h; exact Or.inl h
  | succ fuel ih =>
    intro n acc c h
    unfold natDecAux at h
    split at h
    · rename_i h10
      rcases List.mem_cons.mp h with h | h
      · exact Or.inr ⟨n, h10, h⟩
      · exact Or.inl h
    · rcases ih _ _ _ h with h | h
      · rcases List.mem_cons.mp h with h | h
        · exact Or.inr ⟨n % 10, Nat.mod_lt _ (by decide), h⟩
        · exact Or.inl h
      · exact Or.inr h

theorem natDec_mem (n : Nat) (c : Char) (h : c ∈ natDec n) : ∃ d, d < 10 ∧ c = decDigit d := by
  rcases natDecAux_mem (n + 1) n [] c h with h | h
  · simp at h
  · exact h

theorem natDecAux_ne_nil (fuel : Nat) : ∀ (n : Nat) (acc : List Char),
    acc ≠ [] ∨ 0 < fuel → natDecAux fuel n acc ≠ [] := by
  induction fuel with
  | zero => intro n acc h; rcases h with h | h; exact h; omega
  | succ fuel ih =>
    intro n acc _
    unfold natDecAux
    split
    · simp
    · exact ih _ _ (Or.inl (by simp))

theorem natDecAux_length (fuel : Nat) : ∀ (n k : Nat) (acc : List Char), 1 ≤ k → n < 10 ^ k →
    (natDecAux fuel n acc).length ≤ acc.length + k := by
  induction fuel with
  | zero => intro n k acc _ _; simp [natDecAux]
  | succ fuel ih =>
    intro n k acc hk hn
    unfold natDecAux
    split
    · simp; omega
    · rename_i h10
      obtain ⟨j, rfl⟩ : ∃ j, k = j + 1 := ⟨k - 1, by omega⟩
      have hj : 1 ≤ j := by
        by_contra hc
        have : j = 0 := by omega
        subst this
        simp at hn
        omega
      have := ih (n / 10) j (decDigit (n % 10) :: acc) hj (by
        rw [pow_succ] at hn
        exact Nat.div_lt_of_lt_mul (by rw [Nat.mul_comm]; exact hn))
      simp only [List.length_cons] at this
      omega

theorem decDigit_facts (d : Nat) (h : d < 10) :
    isSpace (decDigit d) = false ∧ decDigit d ≠ '\n' ∧ decDigit d ≠ '-' ∧ decDigit d ≠ '+' ∧
    decDigit d ≠ 'x' ∧ decDigit d ≠ 'X' ∧ lowerChar (decDigit d) ≠ 'i' ∧
    lowerChar (decDigit d) ≠ 'n' := by
  interval_cases d <;> decide

theorem takeLine_line : ∀ (k : Nat) (ds : List Char), ds.length < k → '\n' ∉ ds →
    takeLine k (ds ++ ['\n']) = ds ++ ['\n'] := by
  intro k ds
  induction ds generalizing k with
  | nil =>
    intro hk _
    obtain ⟨j, rfl⟩ : ∃ j, k = j + 1 := ⟨k - 1, by simp at hk; omega⟩
    simp [takeLine]
  | cons c cs ih =>
    intro hk hnl
    obtain ⟨j, rfl⟩ : ∃ j, k = j + 1 := ⟨k - 1, by simp at hk; omega⟩
    simp only [List.mem_cons, not_or] at hnl
    simp only [List.cons_append, takeLine]
    rw [if_neg (fun h => hnl.1 h.symm)]
    exact congrArg (c :: ·) (ih j (by simp at hk; omega) hnl.2)

theorem readDigits_cnt_ge (val : Char → Option Nat) (base : Nat) :
    ∀ (l : List Char) (a c : Nat), c ≤ (readDigits val base l a c).2.1 := by
  intro l
  induction l with
  | nil => intro a c; simp [readDigits]
  | cons x xs ih =>
    intro a c
    unfold readDigits
    split
    · exact le_trans (Nat.le_succ c) (ih _ _)
    · simp

/-- The text `atof` is given when the thermal zone prints `m`: it starts with
a digit. -/
theorem natDec_line_cons (m : Nat) :
    ∃ d c cs, d < 10 ∧ c = decDigit d ∧ natDec m ++ ['\n'] = c :: cs := by
  have hne : natDec m ≠ [] := natDecAux_ne_nil (m + 1) m [] (Or.inr (by omega))
  cases hnd : natDec m with
  | nil => exact absurd hnd hne
  | cons c cs =>
    obtain ⟨d, hd, hc⟩ := natDec_mem m c (by rw [hnd]; simp)
    exact ⟨d, c, cs ++ ['\n'], hd, hc, by simp⟩

theorem atof_natDec (m : Nat) :
    atof (String.mk (natDec m ++ ['\n'])) = roundRat binary64 false m 1 := by
  obtain ⟨d, c, cs, hd, hc, hcons⟩ := natDec_line_cons m
  obtain ⟨hsp, hnl, hminus, hplus, _, _, hi, hn⟩ := decDigit_facts d hd
  rw [← hc] at hsp hnl hminus hplus hi hn
  have hmem : ∀ x, x ∈ natDec m ++ ['\n'] → x ≠ 'x' ∧ x ≠ 'X' := by
    intro x hx
    rcases List.mem_append.mp hx with hx | hx
    · obtain ⟨e, he, hxe⟩ := natDec_mem m x hx
      obtain ⟨_, _, _, _, h5, h6, _, _⟩ := decDigit_facts e he
      rw [hxe]; exact ⟨h5, h6⟩
    · simp only [List.mem_singleton] at hx
      rw [hx]; exact ⟨by decide, by decide⟩
  obtain ⟨k, hk⟩ := readDigits_natDec m ['\n'] (by
    intro x r hxr
    simp only [List.cons.injEq] at hxr
    rw [← hxr.1]; rfl)
  have hk1 : 1 ≤ k := by
    have h1 := readDigits_cnt_ge digitVal 10 cs (0 * 10 + d) 1
    have h2 : readDigits digitVal 10 (natDec m ++ ['\n']) 0 0
        = readDigits digitVal 10 cs (0 * 10 + d) (0 + 1) := by
      rw [hcons]
      simp [readDigits, hc, digitVal_decDigit d hd]
    rw [hk] at h2
    rw [← h2] at h1
    exact h1
  have hmant : readMant digitVal 10 (natDec m ++ ['\n']) = some (m, 0, ['\n']) := by
    unfold readMant
    rw [hk]
    split
    · rename_i heq
      simp only [Prod.mk.injEq, List.cons.injEq] at heq
      exact absurd heq.2.2.1 (by decide)
    · rename_i heq
      simp only [Prod.mk.injEq] at heq
      obtain ⟨rfl, rfl, rfl⟩ := heq
      rw [if_neg (by omega)]
  have hbody : atofBody false (natDec m ++ ['\n']) = roundRat binary64 false m 1 := by
    unfold atofBody
    have s1 : startsCI ['i', 'n', 'f'] (natDec m ++ ['\n']) = false := by
      rw [hcons]; simp [startsCI, hi]
    have s2 : startsCI ['n', 'a', 'n'] (natDec m ++ ['\n']) = false := by
      rw [hcons]; simp [startsCI, hn]
    simp only [s1, s2, Bool.false_eq_true, if_false]
    have hhex : (match natDec m ++ ['\n'] with
        | '0' :: c :: r => if c = 'x' ∨ c = 'X' then readMant hexVal 16 r else none
        | _ => none) = none := by
      split
      · rename_i c2 r heq
        have := hmem c2 (by rw [heq]; simp)
        rw [if_neg (by intro h; rcases h with h | h; exact this.1 h; exact this.2 h)]
      · rfl
    rw [hhex, hmant]
    simp [scaled, readExp]
  unfold atof
  simp only
  have hdrop : List.dropWhile isSpace (natDec m ++ ['\n']) = natDec m ++ ['\n'] := by
    rw [hcons]
    simp [List.dropWhile, hsp]
  rw [hdrop]
  split
  · rename_i r heq
    rw [hcons] at heq
    simp only [List.cons.injEq] at heq
    exact absurd heq.1.symm hminus.symm
  · rename_i r heq
    rw [hcons] at heq
    simp only [List.cons.injEq] at heq
    exact absurd heq.1.symm hplus.symm
  · exact hbody

/-! ## Claim on the CPU temperature -/

theorem fgets_natDec (p : Pipe) (m : Nat) (hm : m < 16777216)
    (hout : p.output = String.mk (natDec m ++ ['\n'])) :
    fgets 64 p = String.mk (natDec m ++ ['\n']) := by
  unfold fgets
  rw [hout]
  simp only
  rw [if_neg (by simp)]
  have hlen : (natDec m).length ≤ 8 := by
    have := natDecAux_length (m + 1) m 8 [] (by decide) (by omega)
    simpa [natDec] using this
  have hnl : '\n' ∉ natDec m := by
    intro h
    obtain ⟨d, hd, hc⟩ := natDec_mem m _ h
    exact (decDigit_facts d hd).2.1 hc.symm
  rw [takeLine_line (64 - 1) (natDec m) (by omega) hnl]

theorem parsed_natDec (p : Pipe) (m : Nat) (hm1 : 1 ≤ m) (hm : m < 16777216)
    (hout : p.output = String.mk (natDec m ++ ['\n'])) :
    ∃ k : Nat, parsed p = Flt.fin false (m * 2 ^ k) (-(k : Int)) := by
  unfold parsed
  rw [fgets_natDec p m hm hout, atof_natDec]
  obtain ⟨k, hk⟩ := roundRat_exact binary64 false m 1 hm1 (le_refl 1) (by decide)
    (by show m < 2 ^ 53; omega) (by decide) (by decide)
  rw [Nat.mul_one] at hk
  rw [hk]
  have hk1 : (-(k : Int)).toNat = 0 := by omega
  have hk2 : (-(-(k : Int))).toNat = k := by omega
  unfold Flt.toFormat
  simp only [hk1, hk2, pow_zero, Nat.mul_one]
  exact roundRat_exact binary32 false m (2 ^ k) hm1 (Nat.pos_pow_of_pos k (by decide))
    (by decide) (by show m < 2 ^ 24; omega) (by decide) (by decide)

/-- C10, as stated, fails: for the thermal-zone output `16777999` the function
returns 16778, not 16777: the value does not fit the 24 bits of a `float` and
is rounded to 16778000 before the division. -/
theorem c10_counterexample :
    (constPipe "16777999\n" cpuTempCmd).output = String.mk (natDec 16777999 ++ ['\n']) ∧
    (constPipe "16777999\n" cpuTempCmd).status = 0 ∧
    get_cpu_temp (constPipe "16777999\n") = Res.ok 16778 ∧
    (16777999 : Nat) / 1000 = 16777 := by
  refine ⟨by decide, rfl, by decide, by decide⟩

/-- C10, amended: for every thermal-zone output that is a non-negative integer
`m` of millidegrees below `2^24 = 16777216`, the command exiting with status 0,
`get_cpu_temp` returns `m` divided by 1000 and truncated, the integer
`⌊m / 1000⌋`. -/
theorem c10_cpu_temp (popen : String → Pipe) (m : Nat) (hm : m < 16777216)
    (hout : (popen "cat /sys/class/thermal/thermal_zone0/temp").output
      = String.mk (natDec m ++ ['\n']))
    (hstatus : (popen "cat /sys/class/thermal/thermal_zone0/temp").status = 0) :
    get_cpu_temp popen = Res.ok ((m / 1000 : Nat) : Int) := by
  unfold get_cpu_temp get_command_result
  simp only [hstatus, ne_eq, not_true_eq_false, if_false]
  by_cases h0 : m = 0
  · subst h0
    rw [fgets_natDec _ 0 hm hout, atof_natDec]
    decide
  · obtain ⟨k, hk⟩ := parsed_natDec _ m (by omega) hm hout
    unfold parsed at hk
    rw [hk]
    simp only [Flt.ge0, Bool.not_false, Bool.true_or, if_true, Res.map, castInt]
    rw [divNat_toInt m k (by omega) hm]

/-- C10 at the outputs `45678` and `999`: 45 and 0 degrees. -/
theorem c10_cpu_temp_witness :
    get_cpu_temp (constPipe "45678\n") = Res.ok ((45678 / 1000 : Nat) : Int) ∧
    (45678 / 1000 : Nat) = 45 ∧ (999 / 1000 : Nat) = 0 :=
  ⟨c10_cpu_temp (constPipe "45678\n") 45678 (by decide) (by decide) rfl, by decide, by decide⟩

end TempChar
